import Mathlib

/-!
Verification of the SFTP client core (sftp.c): packet codec, request-id
registry, protocol primitives, and the pipelined transfer engine.

The embedding models C machine integers as `Nat`/`Int` with explicit
reduction modulo `2^32` / `2^64` where C unsigned wraparound matters, and
packet payloads as `List Nat` of byte values (each memory byte is reduced
mod 256 when read as part of a 32-bit word, mirroring `unsigned char`
access in `GET_32BIT`).
-/

namespace Sftp

/-- 2^32, the modulus of C `unsigned` arithmetic. -/
def two32 : Nat := 4294967296

/-- 2^31, the first value that becomes negative when stored in a C `int`. -/
def two31 : Nat := 2147483648

/-- 2^64, the modulus of the handrolled `uint64` arithmetic. -/
def two64 : Nat := 18446744073709551616

/-- Conversion of an unsigned 32-bit value to a C `int` (twos-complement
wraparound, as on every platform this code targets). -/
def wrap32 (n : Nat) : Int :=
  if n < two31 then (n : Int) else (n : Int) - (two32 : Int)

/-- `GET_32BIT`: big-endian read of four bytes at `pos`; each memory cell is
an `unsigned char`, hence the reduction mod 256. -/
def get32 (data : List Nat) (pos : Nat) : Nat :=
  (data.getD pos 0 % 256) * 16777216 +
  (data.getD (pos + 1) 0 % 256) * 65536 +
  (data.getD (pos + 2) 0 % 256) * 256 +
  (data.getD (pos + 3) 0 % 256)

/-- `struct sftp_packet` on the decode side: `data`/`length` are the byte
buffer (`length = data.length`), `savedpos` the read cursor, `type` the
decoded type byte.  (`maxlen` is allocator bookkeeping with no semantic
content and is omitted.) -/
structure Packet where
  data : List Nat
  savedpos : Nat
  type : Nat
deriving Repr, DecidableEq

/-- `sftp_pkt_getbyte`. -/
def sftp_pkt_getbyte (pkt : Packet) : Option (Nat × Packet) :=
  if pkt.data.length - pkt.savedpos < 1 then none
  else some (pkt.data.getD pkt.savedpos 0 % 256,
             { pkt with savedpos := pkt.savedpos + 1 })

/-- `sftp_pkt_getuint32`: bounds check `length - savedpos < 4` (unsigned
subtraction; the cursor invariant `savedpos ≤ length` holds at every call
site, under which `Nat` truncated subtraction agrees with it), then a
big-endian read and cursor advance. -/
def sftp_pkt_getuint32 (pkt : Packet) : Option (Nat × Packet) :=
  if pkt.data.length - pkt.savedpos < 4 then none
  else some (get32 pkt.data pkt.savedpos,
             { pkt with savedpos := pkt.savedpos + 4 })

/-- Result record of `sftp_pkt_getstring`: the C function returns 0/1 and
writes through `*p` (borrow into the packet, `none` models `NULL`) and
`*length` (a C `int`), advancing the cursor in place. -/
structure GetStringResult where
  ok : Bool
  p : Option (List Nat)
  len : Int
  pkt : Packet
deriving Repr, DecidableEq

/-- `sftp_pkt_getstring`: read a 32-bit length word, then check the declared
length (as a C `int`) against the remaining bytes (also compared as a C
`int`) and non-negativity; on success the borrow is the sublist at the
cursor.  On the first failure path `*length` is never written; we model the
junk value as 0. -/
def sftp_pkt_getstring (pkt : Packet) : GetStringResult :=
  if pkt.data.length - pkt.savedpos < 4 then
    { ok := false, p := none, len := 0, pkt := pkt }
  else
    let len : Int := wrap32 (get32 pkt.data pkt.savedpos)
    let pkt1 : Packet := { pkt with savedpos := pkt.savedpos + 4 }
    if wrap32 ((pkt1.data.length - pkt1.savedpos) % two32) < len ∨ len < 0 then
      { ok := false, p := none, len := 0, pkt := pkt1 }
    else
      { ok := true,
        p := some ((pkt1.data.drop pkt1.savedpos).take len.toNat),
        len := len,
        pkt := { pkt1 with savedpos := pkt1.savedpos + len.toNat } }

/-- Concrete packet for the C7 witness: type byte consumed, cursor 1,
payload declares a 3-byte string containing a NUL. -/
def pkt7 : Packet := ⟨[102, 0, 0, 0, 3, 65, 0, 66], 1, 102⟩

/-! ## STATUS handling (`fxp_got_status`) -/

def SSH_FXP_STATUS : Nat := 101

/-- The fixed nine-entry message table from `fxp_got_status`. -/
def fxp_messages : List String :=
  ["unexpected OK response",
   "end of file",
   "no such file or directory",
   "permission denied",
   "failure",
   "bad message",
   "no connection",
   "connection lost",
   "operation unsupported"]

def msgExpectedStatus : String := "expected FXP_STATUS packet"

def msgMalformedStatus : String := "malformed FXP_STATUS packet"

def msgUnknownCode : String := "unknown error code"

def msgEmpty : String := ""

/-- Result of `fxp_got_status`: the C return value together with the values
left in the module-level error channel `(fxp_errtype, fxp_error_message)`. -/
structure StatusResult where
  ret : Int
  errtype : Int
  message : String
deriving Repr, DecidableEq

/-- `fxp_got_status`: on a non-STATUS packet or a truncated payload set the
channel to `(-1, diagnostic)`; otherwise store the code (as a C `int`) and
the table message, "unknown error code" when out of range.  Return 1 for
`SSH_FX_OK` (0), 0 for `SSH_FX_EOF` (1), else -1. -/
def fxp_got_status (pkt : Packet) : StatusResult :=
  if pkt.type ≠ SSH_FXP_STATUS then
    { ret := -1, errtype := -1, message := msgExpectedStatus }
  else
    match sftp_pkt_getuint32 pkt with
    | none => { ret := -1, errtype := -1, message := msgMalformedStatus }
    | some (ul, _) =>
      let errtype : Int := wrap32 ul
      let message : String :=
        if errtype < 0 ∨ 9 ≤ errtype then msgUnknownCode
        else fxp_messages.getD errtype.toNat msgEmpty
      let ret : Int := if errtype = 0 then 1 else if errtype = 1 then 0 else -1
      { ret := ret, errtype := errtype, message := message }

/-- Concrete STATUS packet for the C6 witness: type 101, request id consumed
(cursor 5), status code 4 (`SSH_FX_FAILURE`). -/
def pkt6 : Packet := ⟨[101, 0, 0, 1, 0, 0, 0, 0, 4], 5, 101⟩

/-- `pkt6` after its status code has been read. -/
def pkt6after : Packet := ⟨[101, 0, 0, 1, 0, 0, 0, 0, 4], 9, 101⟩

/-! ## Request registry (`tree234` keyed by id) and correlation -/

def REQUEST_ID_OFFSET : Nat := 256

/-- `struct sftp_request`: the request descriptor.  `userdata` is the opaque
pointer used by the transfer engine; `none` models `NULL`, `some k` models a
pointer to the `req` record at position `k` of a transfer queue. -/
structure SftpRequest where
  id : Nat
  registered : Bool
  userdata : Option Nat
deriving Repr, DecidableEq

instance : Inhabited SftpRequest := ⟨⟨0, false, none⟩⟩

/-- The registry: the `tree234` ordered by `sftp_reqcmp` (ascending id),
modelled as the list of its elements in tree order. -/
abbrev Registry := List SftpRequest

/-- `index234`: the k-th element in id order (`NULL` out of range; the code
only indexes in range, so the default element stands in for that). -/
def idAt (reg : Registry) (k : Nat) : Nat := (reg.getD k default).id

/-- `find234` with `sftp_reqfind`: locate the descriptor with the given id. -/
def find234 (i : Nat) : Registry → Option SftpRequest
  | [] => none
  | x :: xs => if x.id = i then some x else find234 i xs

/-- `del234`: remove the (unique) element with the given element's id. -/
def del234 (r : SftpRequest) : Registry → Registry
  | [] => []
  | x :: xs => if x.id = r.id then xs else x :: del234 r xs

/-- `add234` with `sftp_reqcmp`: ordered insert; an exact-duplicate id is
refused (tree234 keeps the existing element). -/
def add234 (r : SftpRequest) : Registry → Registry
  | [] => [r]
  | x :: xs =>
    if r.id < x.id then r :: x :: xs
    else if r.id = x.id then x :: xs
    else x :: add234 r xs

def msgInvalidPacket : String := "did not receive a valid SFTP packet\n"

def msgIdMismatch : String := "request ID mismatch\n"

/-- Outcome of `sftp_find_request`: the returned descriptor (or `NULL`), the
registry afterwards, the packet afterwards (cursor advanced past the id on a
successful parse), whether `sftp_pkt_free` was called on the packet, and the
diagnostic stored in the error channel, if any. -/
structure FindResult where
  req : Option SftpRequest
  reg : Registry
  pkt : Option Packet
  freed : Bool
  errmsg : Option String
deriving Repr, DecidableEq

/-- `sftp_find_request`: read the leading u32 of the packet as the request
id, look it up, require `registered`, remove it from the registry and return
it.  A null packet or short payload returns `NULL` without freeing the
packet; an unknown or unregistered id returns `NULL` after freeing it. -/
def sftp_find_request (reg : Registry) (pktin : Option Packet) : FindResult :=
  match pktin with
  | none => ⟨none, reg, none, false, some msgInvalidPacket⟩
  | some pkt =>
    match sftp_pkt_getuint32 pkt with
    | none => ⟨none, reg, some pkt, false, some msgInvalidPacket⟩
    | some (id, pkt1) =>
      match find234 id reg with
      | none => ⟨none, reg, some pkt1, true, some msgIdMismatch⟩
      | some req =>
        if req.registered then ⟨some req, del234 req reg, some pkt1, false, none⟩
        else ⟨none, reg, some pkt1, true, some msgIdMismatch⟩

/-- Concrete too-short packet for the C3 counterexample: 2-byte buffer,
cursor past the type byte, fewer than 4 bytes remain for the request id. -/
def pkt3short : Packet := ⟨[103, 0], 1, 103⟩

/-- Registry and packet for the C3 witness: one registered request with
id 256; the packet carries id bytes 0,0,1,0 = 256 after the type byte. -/
def reg3 : Registry := [⟨256, true, none⟩]

def pkt3ok : Packet := ⟨[101, 0, 0, 1, 0], 1, 101⟩

def pkt3okAfter : Packet := ⟨[101, 0, 0, 1, 0], 5, 101⟩

/-! ## Request-id allocation (`sftp_alloc_request`) -/

/-- The ids held in the registry, in tree order. -/
def regIds (reg : Registry) : List Nat := reg.map (fun r => r.id)

/-- The binary-search loop of `sftp_alloc_request`, in C `unsigned`
arithmetic: `low` starts at `(unsigned)-1 = 2^32-1`, the guard `high - low
 > 1` and the midpoint `(high + low) / 2` both wrap mod 2^32 exactly as in
the source.  The `while` loop carries explicit fuel; `sftp_alloc_request`
supplies enough for the guard to go false (`allocLoop_spec`). -/
def allocLoop (reg : Registry) : Nat → Nat → Nat → Nat
  | 0, low, _high => low
  | fuel + 1, low, high =>
    if 1 < (high + two32 - low) % two32 then
      if idAt reg (((high + low) % two32) / 2) =
          ((high + low) % two32) / 2 + REQUEST_ID_OFFSET then
        allocLoop reg fuel (((high + low) % two32) / 2) high
      else allocLoop reg fuel low (((high + low) % two32) / 2)
    else low

/-- `sftp_alloc_request`: first-fit id allocation by binary search over the
counted tree, then insertion of the fresh descriptor (unregistered, no
userdata). -/
def sftp_alloc_request (reg : Registry) : SftpRequest × Registry :=
  let tsize := reg.length
  let low := allocLoop reg (tsize + 2) (two32 - 1) tsize
  let r : SftpRequest := ⟨(low + 1 + REQUEST_ID_OFFSET) % two32, false, none⟩
  (r, add234 r reg)

/-- Shifted view of the loop variable: `low = 2^32-1` stands for "no prefix
element confirmed yet", i.e. shifted position 0. -/
def lowShift (low : Nat) : Nat := if low = two32 - 1 then 0 else low + 1

/-- Loop invariant of the binary search. -/
def AllocInv (reg : Registry) (low high : Nat) : Prop :=
  lowShift low ≤ high ∧ high ≤ reg.length ∧
  (low = two32 - 1 ∨ (low < reg.length ∧ idAt reg low = low + REQUEST_ID_OFFSET)) ∧
  (high = reg.length ∨ idAt reg high ≠ high + REQUEST_ID_OFFSET)

/-- Exit characterisation of the binary search. -/
def AllocPost (reg : Registry) (l : Nat) : Prop :=
  (l = two32 - 1 ∨ (l < reg.length ∧ idAt reg l = l + REQUEST_ID_OFFSET)) ∧
  lowShift l ≤ reg.length ∧
  (lowShift l = reg.length ∨ idAt reg (lowShift l) ≠ lowShift l + REQUEST_ID_OFFSET)

/-- The registry holding exactly the contiguous ids
`{REQUEST_ID_OFFSET, …, REQUEST_ID_OFFSET+n-1}`. -/
def prefixReg (n : Nat) : Registry :=
  (List.range n).map (fun j => ⟨REQUEST_ID_OFFSET + j, true, none⟩)

/-! ## Transfer engine (`struct fxp_xfer`, `struct req`) -/

def SSH_FXP_DATA : Nat := 103

/-- Conversion of a C `int` to `unsigned` (mod 2^32), for arguments passed
to `uint64_add32`. -/
def u32ofInt (i : Int) : Nat := (i % (4294967296 : Int)).toNat

/-- `uint64_add32`: 64-bit add of a 32-bit quantity, wrapping mod 2^64. -/
def uint64_add32 (a b : Nat) : Nat := (a + b) % two64

/-- `struct req`: one in-flight read or write.  `buffer` is the identity of
the heap buffer (`snewn` returns a fresh pointer; the model uses the unique
request offset as its stand-in, and `0` for upload requests whose buffer is
`NULL`). -/
structure Req where
  buffer : Nat
  len : Int
  retlen : Int
  complete : Int
  offset : Nat
deriving Repr, DecidableEq

instance : Inhabited Req := ⟨⟨0, 0, 0, 0, 0⟩⟩

/-- `struct fxp_xfer`.  The queue is the doubly-linked `head`/`tail` list in
order; `filesize`/`furthestdata`/`offset` are the handrolled uint64s. -/
structure FxpXfer where
  offset : Nat
  furthestdata : Nat
  filesize : Nat
  req_totalsize : Int
  req_maxsize : Int
  eof : Bool
  err : Bool
  queue : List Req
deriving Repr, DecidableEq

/-- `xfer_init`: common initialisation.  (`eof` is left uninitialised by the
C code and is assigned by both callers immediately; the model supplies
`false` as the placeholder.) -/
def xfer_init (offset : Nat) : FxpXfer :=
  { offset := offset, furthestdata := 0, filesize := two64 - 1,
    req_totalsize := 0, req_maxsize := 1048576,
    eof := false, err := false, queue := [] }

/-- `xfer_done`: finished iff EOF or error has been seen and no requests are
outstanding. -/
def xfer_done (x : FxpXfer) : Bool := (x.eof || x.err) && x.queue.isEmpty

/-- `xfer_set_error`. -/
def xfer_set_error (x : FxpXfer) : FxpXfer := { x with err := true }

/-- `xfer_download_queue`: issue 32768-byte reads at the running offset
while the window has room and neither `eof` nor `err` is set.  Each
iteration appends a pending `req`, advances the offset and adds to the
in-flight total.  (The paired `fxp_read_send`/`sftp_register` touch only the
request registry, modelled separately.) -/
def xfer_download_queue (x : FxpXfer) : FxpXfer :=
  if h : x.req_totalsize < x.req_maxsize ∧ x.eof = false ∧ x.err = false then
    xfer_download_queue
      { x with
        queue := x.queue ++ [{ buffer := x.offset, len := 32768, retlen := 0,
                               complete := 0, offset := x.offset }],
        offset := uint64_add32 x.offset 32768,
        req_totalsize := x.req_totalsize + 32768 }
  else x
termination_by (x.req_maxsize - x.req_totalsize).toNat
decreasing_by
  omega

/-- `xfer_download_init`. -/
def xfer_download_init (offset : Nat) : FxpXfer :=
  xfer_download_queue { xfer_init offset with eof := false }

/-- The tail of `xfer_download_gotpkt` from the point where `rr->complete`
has been finally assigned: the `furthestdata` update, the short-read
filesize inference, and the short-buffer-not-at-EOF check. -/
def downloadGotpktAfter (x : FxpXfer) (k : Nat) (retlen : Int) : FxpXfer × Int :=
  let rr := x.queue.getD k default
  let x4 := if retlen > 0 ∧ x.furthestdata < rr.offset
            then { x with furthestdata := rr.offset } else x
  let x5 := if retlen < rr.len then
      if (rr.offset + (if retlen < 0 then 0 else retlen.toNat)) % two64 < x4.filesize
      then { x4 with
             filesize := (rr.offset + (if retlen < 0 then 0 else retlen.toNat)) % two64 }
      else x4
    else x4
  if x5.filesize < x5.furthestdata then ({ x5 with err := true }, -1)
  else (x5, 1)

/-- The body of `xfer_download_gotpkt` once the reply has been correlated to
the queue entry at position `k` and `fxp_read_recv` has produced `retlen`
with the error channel at `errtype`: store `retlen`; on EOF status or a
zero-length return set `eof` and assign `complete = -1` — which the
unconditional `rr->complete = 1` that follows immediately overwrites; on any
other error set `err`, mark failed and return -1; then run the filesize
logic. -/
def xfer_download_gotpkt_core (x : FxpXfer) (k : Nat) (retlen errtype : Int) :
    FxpXfer × Int :=
  let x1 := { x with queue := x.queue.modify (fun rr => { rr with retlen := retlen }) k }
  if (retlen < 0 ∧ errtype = 1) ∨ retlen = 0 then
    downloadGotpktAfter
      { x1 with eof := true,
                queue := (x1.queue.modify (fun rr => { rr with complete := -1 }) k).modify
                  (fun rr => { rr with complete := 1 }) k } k retlen
  else if retlen < 0 then
    ({ x1 with err := true,
               queue := x1.queue.modify (fun rr => { rr with complete := -1 }) k }, -1)
  else
    downloadGotpktAfter
      { x1 with queue := x1.queue.modify (fun rr => { rr with complete := 1 }) k }
      k retlen

/-- The head-drain loop of `xfer_download_data`: pop completed entries from
the head, discarding failed ones (`complete < 0`) and stopping after the
first success, whose buffer and returned length are handed to the caller.
Returns (delivered data, remaining queue, remaining in-flight total). -/
def download_data_loop : List Req → Int → Option (Nat × Int) × List Req × Int
  | [], total => (none, [], total)
  | rr :: rest, total =>
    if rr.complete ≠ 0 then
      if rr.complete > 0 then (some (rr.buffer, rr.retlen), rest, total - rr.len)
      else download_data_loop rest (total - rr.len)
    else (none, rr :: rest, total)

/-- `xfer_download_data`. -/
def xfer_download_data (x : FxpXfer) : FxpXfer × Option (Nat × Int) :=
  ({ x with queue := (download_data_loop x.queue x.req_totalsize).2.1,
            req_totalsize := (download_data_loop x.queue x.req_totalsize).2.2 },
   (download_data_loop x.queue x.req_totalsize).1)

/-- `xfer_upload_init`: `eof` starts true so `xfer_done` is "no outstanding
requests". -/
def xfer_upload_init (offset : Nat) : FxpXfer :=
  { xfer_init offset with eof := true }

/-- `xfer_upload_ready`. -/
def xfer_upload_ready (x : FxpXfer) : Bool :=
  decide (x.req_totalsize < x.req_maxsize)

/-- `xfer_upload_data`: append one WRITE `req` (buffer `NULL`) at the
current offset and advance. -/
def xfer_upload_data (x : FxpXfer) (len : Int) : FxpXfer :=
  { x with
    queue := x.queue ++ [{ buffer := 0, len := len, retlen := 0,
                           complete := 0, offset := x.offset }],
    offset := uint64_add32 x.offset (u32ofInt len),
    req_totalsize := x.req_totalsize + len }

/-- The body of `xfer_upload_gotpkt` once the reply has been correlated to
queue position `k` and `fxp_write_recv` returned `ok`: unlink the entry
(any position), reduce the in-flight total, return -1 on failure. -/
def xfer_upload_gotpkt_core (x : FxpXfer) (k : Nat) (ok : Bool) :
    FxpXfer × Int :=
  let rr := x.queue.getD k default
  let x1 := { x with queue := x.queue.eraseIdx k,
                     req_totalsize := x.req_totalsize - rr.len }
  if ok then (x1, 1) else (x1, -1)

/-- `fxp_read_recv` on an already-correlated packet: a DATA reply yields its
string length (rejecting malformed strings and over-long reads with the
error channel at -1); any other type runs `fxp_got_status` and returns -1.
Result is (return value, error channel afterwards), given the channel held
`errtype0` before. -/
def fxp_read_recv (errtype0 : Int) (pkt : Packet) (len : Int) : Int × Int :=
  if pkt.type = SSH_FXP_DATA then
    if (sftp_pkt_getstring pkt).ok = false then (-1, -1)
    else if (sftp_pkt_getstring pkt).len > len ∨ (sftp_pkt_getstring pkt).len < 0 then
      (-1, -1)
    else ((sftp_pkt_getstring pkt).len, errtype0)
  else
    (-1, (fxp_got_status pkt).errtype)

/-- `fxp_write_recv`: run `fxp_got_status`; success iff the status is
`SSH_FX_OK`.  Result is (return value, error channel afterwards). -/
def fxp_write_recv (pkt : Packet) : Bool × Int :=
  ((fxp_got_status pkt).errtype = 0, (fxp_got_status pkt).errtype)

/-- `xfer_download_gotpkt` end to end: correlate via `sftp_find_request`,
read the `req` pointer out of the descriptor's userdata with no null check —
a failed correlation (`NULL` descriptor) dereferences null, modelled as
`none` (outside the defined embedding); null userdata is "this packet isn't
ours", returning 0; otherwise run `fxp_read_recv` and the gotpkt body.
Result on the defined path: (registry, transfer state, return value). -/
def xfer_download_gotpkt (errtype0 : Int) (reg : Registry) (x : FxpXfer)
    (pktin : Option Packet) : Option (Registry × FxpXfer × Int) :=
  match (sftp_find_request reg pktin).req, (sftp_find_request reg pktin).pkt with
  | none, _ => none
  | some _, none => none
  | some rq, some pkt1 =>
    match rq.userdata with
    | none => some ((sftp_find_request reg pktin).reg, x, 0)
    | some k =>
      some ((sftp_find_request reg pktin).reg,
        (xfer_download_gotpkt_core x k
          (fxp_read_recv errtype0 pkt1 (x.queue.getD k default).len).1
          (fxp_read_recv errtype0 pkt1 (x.queue.getD k default).len).2).1,
        (xfer_download_gotpkt_core x k
          (fxp_read_recv errtype0 pkt1 (x.queue.getD k default).len).1
          (fxp_read_recv errtype0 pkt1 (x.queue.getD k default).len).2).2)

/-- `xfer_upload_gotpkt` end to end, mirroring `xfer_download_gotpkt`. -/
def xfer_upload_gotpkt (reg : Registry) (x : FxpXfer)
    (pktin : Option Packet) : Option (Registry × FxpXfer × Int) :=
  match (sftp_find_request reg pktin).req, (sftp_find_request reg pktin).pkt with
  | none, _ => none
  | some _, none => none
  | some rq, some pkt1 =>
    match rq.userdata with
    | none => some ((sftp_find_request reg pktin).reg, x, 0)
    | some k =>
      some ((sftp_find_request reg pktin).reg,
        (xfer_upload_gotpkt_core x k (fxp_write_recv pkt1).1).1,
        (xfer_upload_gotpkt_core x k (fxp_write_recv pkt1).1).2)

/-- Concrete transfer state for the C4 witness: one pending 32768-byte read
at offset 0, 100 bytes returned. -/
def xferC4 : FxpXfer :=
  { offset := 32768, furthestdata := 0, filesize := two64 - 1,
    req_totalsize := 32768, req_maxsize := 1048576,
    eof := false, err := false, queue := [⟨0, 32768, 0, 0, 0⟩] }

/-- Registry, transfer state and STATUS(EOF) packet demonstrating the C2
divergence: one outstanding read (buffer identity 7) correlated by id 256,
answered with `SSH_FX_EOF`. -/
def regC2 : Registry := [⟨256, true, some 0⟩]

def xferC2 : FxpXfer :=
  { offset := 32768, furthestdata := 0, filesize := two64 - 1,
    req_totalsize := 32768, req_maxsize := 1048576,
    eof := false, err := false, queue := [⟨7, 32768, 0, 0, 0⟩] }

def pktC2 : Packet := ⟨[101, 0, 0, 1, 0, 0, 0, 0, 1], 1, 101⟩

/-- The transfer state after `xfer_download_gotpkt` processes the EOF
status reply. -/
def xferC2out : FxpXfer :=
  ((xfer_download_gotpkt 0 regC2 xferC2 (some pktC2)).getD ([], xferC2, 0)).2.1

/-! ## C5: the download window invariant -/

/-- One caller-visible step on a download transfer: re-filling the window,
processing a reply (either through the full arrival path or, for an
arbitrary correlated entry and read outcome, through the gotpkt body), or
delivering data. -/
inductive DStep : FxpXfer → FxpXfer → Prop where
  | queue_more (x : FxpXfer) : DStep x (xfer_download_queue x)
  | gotpkt (x : FxpXfer) (k : Nat) (retlen errtype : Int) :
      DStep x (xfer_download_gotpkt_core x k retlen errtype).1
  | gotpkt_full (x : FxpXfer) (e : Int) (reg : Registry) (p : Option Packet)
      (res : Registry × FxpXfer × Int) :
      xfer_download_gotpkt e reg x p = some res → DStep x res.2.1
  | data (x : FxpXfer) : DStep x (xfer_download_data x).1

/-- The window invariant of C5, strengthened with the facts that make it
inductive: the maximum is the constant 1048576 and every queued read is
32768 bytes. -/
def WindowInv (x : FxpXfer) : Prop :=
  x.req_maxsize = 1048576 ∧ x.req_totalsize ≤ 1048576 + 32768 - 1 ∧
  ∀ rr ∈ x.queue, rr.len = 32768

/-- Concrete inputs for the C9 witness: an empty registry and a packet
whose leading u32 is 999. -/
def pkt9 : Packet := ⟨[103, 0, 0, 3, 231], 1, 103⟩

def pkt9after : Packet := ⟨[103, 0, 0, 3, 231], 5, 103⟩

def xfer9 : FxpXfer := xfer_init 0

/-! ## Attributes, READDIR (`fxp_readdir_recv`) -/

def SSH_FXP_NAME : Nat := 104

def SSH_FILEXFER_ATTR_SIZE : Nat := 1

def SSH_FILEXFER_ATTR_UIDGID : Nat := 2

def SSH_FILEXFER_ATTR_PERMISSIONS : Nat := 4

def SSH_FILEXFER_ATTR_ACMODTIME : Nat := 8

def SSH_FILEXFER_ATTR_EXTENDED : Nat := 2147483648

def INT_MAX : Nat := 2147483647

/-- `uint64_make`: assemble a 64-bit value from two 32-bit words. -/
def uint64_make (hi lo : Nat) : Nat := (hi % two32) * two32 + (lo % two32)

/-- `mkstr`: copy `len` bytes and NUL-terminate. -/
def mkstr (s : List Nat) (len : Nat) : List Nat := s.take len ++ [0]

/-- `struct fxp_attrs`.  Fields whose flag bit is absent are left
uninitialised by the C code; the model leaves them 0. -/
structure FxpAttrs where
  flags : Nat
  size : Nat
  uid : Nat
  gid : Nat
  permissions : Nat
  atime : Nat
  mtime : Nat
deriving Repr, DecidableEq

instance : Inhabited FxpAttrs := ⟨⟨0, 0, 0, 0, 0, 0, 0⟩⟩

/-- The `while (count--)` loop over EXTENDED attribute pairs: read two
strings per pair, failing if either is malformed.  (The pairs themselves
are discarded by the C code.) -/
def skipExtendedPairs (pkt : Packet) : Nat → Option Packet
  | 0 => some pkt
  | n + 1 =>
    if (sftp_pkt_getstring pkt).ok = false then none
    else if (sftp_pkt_getstring (sftp_pkt_getstring pkt).pkt).ok = false then none
    else skipExtendedPairs (sftp_pkt_getstring (sftp_pkt_getstring pkt).pkt).pkt n

/-- `sftp_pkt_getattrs`. -/
def sftp_pkt_getattrs (pkt : Packet) : Option (FxpAttrs × Packet) := do
  let (flags, p0) ← sftp_pkt_getuint32 pkt
  let (size, p1) ←
    if Nat.land flags SSH_FILEXFER_ATTR_SIZE ≠ 0 then do
      let (hi, pa) ← sftp_pkt_getuint32 p0
      let (lo, pb) ← sftp_pkt_getuint32 pa
      pure (uint64_make hi lo, pb)
    else pure (0, p0)
  let (uid, gid, p2) ←
    if Nat.land flags SSH_FILEXFER_ATTR_UIDGID ≠ 0 then do
      let (u, pa) ← sftp_pkt_getuint32 p1
      let (g, pb) ← sftp_pkt_getuint32 pa
      pure (u, g, pb)
    else pure (0, 0, p1)
  let (permissions, p3) ←
    if Nat.land flags SSH_FILEXFER_ATTR_PERMISSIONS ≠ 0 then sftp_pkt_getuint32 p2
    else pure (0, p2)
  let (atime, mtime, p4) ←
    if Nat.land flags SSH_FILEXFER_ATTR_ACMODTIME ≠ 0 then do
      let (a, pa) ← sftp_pkt_getuint32 p3
      let (m, pb) ← sftp_pkt_getuint32 pa
      pure (a, m, pb)
    else pure (0, 0, p3)
  let p5 ←
    if Nat.land flags SSH_FILEXFER_ATTR_EXTENDED ≠ 0 then do
      let (count, pa) ← sftp_pkt_getuint32 p4
      skipExtendedPairs pa count
    else pure p4
  pure ({ flags := flags, size := size, uid := uid, gid := gid,
          permissions := permissions, atime := atime, mtime := mtime }, p5)

/-- `struct fxp_name`. -/
structure FxpName where
  filename : List Nat
  longname : List Nat
  attrs : FxpAttrs
deriving Repr, DecidableEq

/-- The decode loop of `fxp_readdir_recv`: for each of `n` names read
filename, longname and attributes, copying the strings with `mkstr`. -/
def readNames (pkt : Packet) : Nat → Option (List FxpName × Packet)
  | 0 => some ([], pkt)
  | n + 1 =>
    if (sftp_pkt_getstring pkt).ok = false then none
    else
      if (sftp_pkt_getstring (sftp_pkt_getstring pkt).pkt).ok = false then none
      else
        match sftp_pkt_getattrs (sftp_pkt_getstring (sftp_pkt_getstring pkt).pkt).pkt with
        | none => none
        | some (attrs, p3) =>
          match readNames p3 n with
          | none => none
          | some (rest, pend) =>
            some (⟨mkstr ((sftp_pkt_getstring pkt).p.getD [])
                     (sftp_pkt_getstring pkt).len.toNat,
                   mkstr ((sftp_pkt_getstring (sftp_pkt_getstring pkt).pkt).p.getD [])
                     (sftp_pkt_getstring (sftp_pkt_getstring pkt).pkt).len.toNat,
                   attrs⟩ :: rest, pend)

def msgMalformedName : String := "malformed FXP_NAME packet"

def msgUnreasonable : String := "unreasonably large FXP_NAME packet"

/-- Result of `fxp_readdir_recv`: names, or an error-channel pair whose
`Bool` records whether the name array had already been allocated when the
failure occurred (the two count guards reject before `snewn`), or the
fallthrough to `fxp_got_status` on a non-NAME reply. -/
inductive ReaddirResult where
  | ok : List FxpName → ReaddirResult
  | err : Int → String → Bool → ReaddirResult
  | status : StatusResult → ReaddirResult
deriving Repr, DecidableEq

/-- `fxp_readdir_recv`.  `sizeofName` abstracts the platform-dependent
`sizeof(struct fxp_name)` in the overflow guard. -/
def fxp_readdir_recv (sizeofName : Nat) (pkt : Packet) : ReaddirResult :=
  if pkt.type = SSH_FXP_NAME then
    match sftp_pkt_getuint32 pkt with
    | none => .err (-1) msgMalformedName false
    | some (i, p1) =>
      if i > (p1.data.length - p1.savedpos) / 12 then .err (-1) msgMalformedName false
      else if i > INT_MAX / sizeofName then .err (-1) msgUnreasonable false
      else
        match readNames p1 i with
        | none => .err (-1) msgMalformedName true
        | some (names, _) => .ok names
  else .status (fxp_got_status pkt)

/-- The 64-byte malformed NAME packet from the spec scenario: declared
count 1,000,000 with only 55 bytes remaining. -/
def pkt8 : Packet :=
  ⟨[104, 0, 0, 1, 0, 0, 15, 66, 64] ++ List.replicate 55 0, 5, 104⟩

def pkt8after : Packet :=
  ⟨[104, 0, 0, 1, 0, 0, 15, 66, 64] ++ List.replicate 55 0, 9, 104⟩

/-! ## Outbound packet construction and the handle round-trip -/

def SSH_FXP_HANDLE : Nat := 102

/-- Outbound `struct sftp_packet`: the byte buffer under construction and
`savedpos`, the position recorded by `sftp_pkt_addstring_start` (initially
`(unsigned)-1`).  `maxlen` is allocator bookkeeping and is omitted. -/
structure OutPacket where
  data : List Nat
  savedpos : Nat
deriving Repr, DecidableEq

/-- `PUT_32BIT`: big-endian bytes of a 32-bit word. -/
def PUT32 (v : Nat) : List Nat :=
  [v / 16777216 % 256, v / 65536 % 256, v / 256 % 256, v % 256]

/-- `PUT_32BIT` at a position inside an existing buffer. -/
def put32At (l : List Nat) (pos v : Nat) : List Nat :=
  l.take pos ++ PUT32 v ++ l.drop (pos + 4)

/-- `sftp_pkt_adddata`. -/
def sftp_pkt_adddata (p : OutPacket) (bytes : List Nat) : OutPacket :=
  { p with data := p.data ++ bytes }

/-- `sftp_pkt_addbyte`. -/
def sftp_pkt_addbyte (p : OutPacket) (b : Nat) : OutPacket :=
  sftp_pkt_adddata p [b % 256]

/-- `sftp_pkt_init`: fresh packet holding just the type byte, with
`savedpos = (unsigned)-1`. -/
def sftp_pkt_init (t : Nat) : OutPacket :=
  sftp_pkt_addbyte ⟨[], two32 - 1⟩ t

/-- `sftp_pkt_adduint32`. -/
def sftp_pkt_adduint32 (p : OutPacket) (v : Nat) : OutPacket :=
  sftp_pkt_adddata p (PUT32 v)

/-- `sftp_pkt_adduint64`: high word first. -/
def sftp_pkt_adduint64 (p : OutPacket) (v : Nat) : OutPacket :=
  sftp_pkt_adddata p (PUT32 (v / two32) ++ PUT32 (v % two32))

/-- `sftp_pkt_addstring_start`: reserve four length bytes and record the
position just past them. -/
def sftp_pkt_addstring_start (p : OutPacket) : OutPacket :=
  OutPacket.mk (sftp_pkt_adduint32 p 0).data (sftp_pkt_adduint32 p 0).data.length

/-- `sftp_pkt_addstring_data`: append the bytes, then patch the reserved
length word to the number of bytes appended since the reservation
(`savedpos` is left where `addstring_start` put it). -/
def sftp_pkt_addstring_data (p : OutPacket) (s : List Nat) : OutPacket :=
  OutPacket.mk
    (put32At (sftp_pkt_adddata p s).data (p.savedpos - 4)
      ((sftp_pkt_adddata p s).data.length - p.savedpos))
    p.savedpos

/-- `struct fxp_handle`. -/
structure FxpHandle where
  hstring : List Nat
  hlen : Int
deriving Repr, DecidableEq

/-- `fxp_open_recv`: on a HANDLE reply, copy the wire string with `mkstr`
(NUL appended, not counted in `hlen`).  The non-HANDLE and malformed paths
return `NULL` (error-channel effects omitted here). -/
def fxp_open_recv (pkt : Packet) : Option FxpHandle :=
  if pkt.type = SSH_FXP_HANDLE then
    if (sftp_pkt_getstring pkt).ok = false then none
    else some ⟨mkstr ((sftp_pkt_getstring pkt).p.getD [])
                 (sftp_pkt_getstring pkt).len.toNat,
               (sftp_pkt_getstring pkt).len⟩
  else none

/-- `fxp_opendir_recv`: identical handle decoding. -/
def fxp_opendir_recv (pkt : Packet) : Option FxpHandle :=
  if pkt.type = SSH_FXP_HANDLE then
    if (sftp_pkt_getstring pkt).ok = false then none
    else some ⟨mkstr ((sftp_pkt_getstring pkt).p.getD [])
                 (sftp_pkt_getstring pkt).len.toNat,
               (sftp_pkt_getstring pkt).len⟩
  else none

/-- The packet built by `fxp_close_send` (the request id comes from
`sftp_alloc_request`, modelled separately and passed in). -/
def fxp_close_send_pkt (id : Nat) (h : FxpHandle) : OutPacket :=
  sftp_pkt_addstring_data
    (sftp_pkt_addstring_start (sftp_pkt_adduint32 (sftp_pkt_init 4) id))
    (h.hstring.take h.hlen.toNat)

/-- The packet built by `fxp_fstat_send`. -/
def fxp_fstat_send_pkt (id : Nat) (h : FxpHandle) : OutPacket :=
  sftp_pkt_addstring_data
    (sftp_pkt_addstring_start (sftp_pkt_adduint32 (sftp_pkt_init 8) id))
    (h.hstring.take h.hlen.toNat)

/-- The packet built by `fxp_readdir_send`. -/
def fxp_readdir_send_pkt (id : Nat) (h : FxpHandle) : OutPacket :=
  sftp_pkt_addstring_data
    (sftp_pkt_addstring_start (sftp_pkt_adduint32 (sftp_pkt_init 12) id))
    (h.hstring.take h.hlen.toNat)

/-- The packet built by `fxp_read_send`. -/
def fxp_read_send_pkt (id : Nat) (h : FxpHandle) (offset : Nat) (len : Int) :
    OutPacket :=
  sftp_pkt_adduint32
    (sftp_pkt_adduint64
      (sftp_pkt_addstring_data
        (sftp_pkt_addstring_start (sftp_pkt_adduint32 (sftp_pkt_init 5) id))
        (h.hstring.take h.hlen.toNat))
      offset)
    (u32ofInt len)

/-- The packet built by `fxp_write_send`. -/
def fxp_write_send_pkt (id : Nat) (h : FxpHandle) (buffer : List Nat)
    (offset : Nat) (len : Int) : OutPacket :=
  sftp_pkt_addstring_data
    (sftp_pkt_addstring_start
      (sftp_pkt_adduint64
        (sftp_pkt_addstring_data
          (sftp_pkt_addstring_start (sftp_pkt_adduint32 (sftp_pkt_init 6) id))
          (h.hstring.take h.hlen.toNat))
        offset))
    (buffer.take len.toNat)

/-- Concrete HANDLE packet for the C10 witness: wire handle [65, 0, 66]
(containing a NUL byte), cursor past type and id. -/
def pkt10 : Packet := ⟨[102, 0, 0, 1, 0, 0, 0, 0, 3, 65, 0, 66], 5, 102⟩

/-! ## Theorems -/

theorem get32_lt (data : List Nat) (pos : Nat) : get32 data pos < two32 := by
  unfold get32 two32
  have h0 : data.getD pos 0 % 256 < 256 := Nat.mod_lt _ (by norm_num)
  have h1 : data.getD (pos + 1) 0 % 256 < 256 := Nat.mod_lt _ (by norm_num)
  have h2 : data.getD (pos + 2) 0 % 256 < 256 := Nat.mod_lt _ (by norm_num)
  have h3 : data.getD (pos + 3) 0 % 256 < 256 := Nat.mod_lt _ (by norm_num)
  omega

/-- C7.  Bounds-safe string decode: on a packet whose cursor is in bounds
(and of realistic size, below 2^31 bytes, so that the `int` casts in the C
bounds comparison do not overflow), `sftp_pkt_getstring` fails exactly when
fewer than 4 bytes remain, or the declared length (read as a C `int`) is
negative, or it exceeds the bytes remaining after the length word; on
success it returns the sublist of the packet at the cursor whose length is
exactly the declared length, and advances the cursor just past it; and on
every path the cursor stays within the buffer. -/
theorem claim_C7_getstring_bounds (pkt : Packet)
    (hpos : pkt.savedpos ≤ pkt.data.length)
    (hsz : pkt.data.length < two31) :
    ((sftp_pkt_getstring pkt).ok = false ↔
      pkt.data.length - pkt.savedpos < 4 ∨
      wrap32 (get32 pkt.data pkt.savedpos) < 0 ∨
      ((pkt.data.length - pkt.savedpos : Nat) : Int) - 4 <
        wrap32 (get32 pkt.data pkt.savedpos)) ∧
    ((sftp_pkt_getstring pkt).ok = true →
      (sftp_pkt_getstring pkt).p =
        some ((pkt.data.drop (pkt.savedpos + 4)).take
                (wrap32 (get32 pkt.data pkt.savedpos)).toNat) ∧
      (sftp_pkt_getstring pkt).len = wrap32 (get32 pkt.data pkt.savedpos) ∧
      (∀ s, (sftp_pkt_getstring pkt).p = some s →
        (s.length : Int) = wrap32 (get32 pkt.data pkt.savedpos)) ∧
      (sftp_pkt_getstring pkt).pkt.savedpos =
        pkt.savedpos + 4 + (wrap32 (get32 pkt.data pkt.savedpos)).toNat) ∧
    (sftp_pkt_getstring pkt).pkt.savedpos ≤ pkt.data.length := by
  have hlt := get32_lt pkt.data pkt.savedpos
  set declared := wrap32 (get32 pkt.data pkt.savedpos) with hd
  by_cases h4 : pkt.data.length - pkt.savedpos < 4
  · -- fewer than 4 bytes remain: failure, cursor untouched
    rw [sftp_pkt_getstring, if_pos h4]
    exact ⟨by simp [h4], by simp, hpos⟩
  · -- at least 4 bytes remain
    have h4' : 4 ≤ pkt.data.length - pkt.savedpos := by omega
    have hrem : (pkt.data.length - (pkt.savedpos + 4)) % two32
        = pkt.data.length - (pkt.savedpos + 4) := by
      apply Nat.mod_eq_of_lt
      unfold two32 two31 at *
      omega
    have hremsmall : pkt.data.length - (pkt.savedpos + 4) < two31 := by omega
    have hremcast : wrap32 ((pkt.data.length - (pkt.savedpos + 4)) % two32)
        = ((pkt.data.length : Int) - (pkt.savedpos : Int) - 4) := by
      rw [hrem]
      unfold wrap32
      rw [if_pos hremsmall]
      omega
    by_cases hfail :
        wrap32 ((pkt.data.length - (pkt.savedpos + 4)) % two32) < declared ∨ declared < 0
    · -- declared length negative or too large: failure, cursor past length word
      rw [sftp_pkt_getstring, if_neg h4]
      simp only [← hd]
      rw [if_pos hfail]
      refine ⟨?_, by simp, by simp; omega⟩
      simp only [true_iff]
      rcases hfail with hbig | hneg
      · right; right
        rw [hremcast] at hbig
        have : ((pkt.data.length - pkt.savedpos : Nat) : Int)
            = (pkt.data.length : Int) - (pkt.savedpos : Int) := by omega
        omega
      · right; left; exact hneg
    · -- success
      push_neg at hfail
      obtain ⟨hsize, hnonneg⟩ := hfail
      rw [hremcast] at hsize
      rw [sftp_pkt_getstring, if_neg h4]
      simp only [← hd]
      rw [if_neg (by rw [hremcast]; push_neg; exact ⟨hsize, hnonneg⟩)]
      have hlen_toNat : (declared.toNat : Int) = declared := Int.toNat_of_nonneg hnonneg
      have hfits : declared.toNat ≤ pkt.data.length - (pkt.savedpos + 4) := by omega
      refine ⟨?_, ?_, ?_⟩
      · constructor
        · intro h; exact absurd h (by simp)
        · intro h
          exfalso
          have hnn : ((pkt.data.length - pkt.savedpos : Nat) : Int)
              = (pkt.data.length : Int) - (pkt.savedpos : Int) := by omega
          rcases h with h | h | h
          · omega
          · omega
          · omega
      · intro _
        refine ⟨rfl, rfl, ?_, rfl⟩
        intro s hs
        have hseq : s = (pkt.data.drop (pkt.savedpos + 4)).take declared.toNat :=
          Option.some_injective _ hs.symm
        subst hseq
        rw [List.length_take, List.length_drop]
        rw [min_eq_left hfits]
        exact hlen_toNat
      · simp only
        omega

/-- Closed witness for C7 at `pkt7`, discharging both hypotheses. -/
theorem claim_C7_witness :
    (pkt7.savedpos ≤ pkt7.data.length ∧ pkt7.data.length < two31) ∧
    (((sftp_pkt_getstring pkt7).ok = false ↔
      pkt7.data.length - pkt7.savedpos < 4 ∨
      wrap32 (get32 pkt7.data pkt7.savedpos) < 0 ∨
      ((pkt7.data.length - pkt7.savedpos : Nat) : Int) - 4 <
        wrap32 (get32 pkt7.data pkt7.savedpos)) ∧
    ((sftp_pkt_getstring pkt7).ok = true →
      (sftp_pkt_getstring pkt7).p =
        some ((pkt7.data.drop (pkt7.savedpos + 4)).take
                (wrap32 (get32 pkt7.data pkt7.savedpos)).toNat) ∧
      (sftp_pkt_getstring pkt7).len = wrap32 (get32 pkt7.data pkt7.savedpos) ∧
      (∀ s, (sftp_pkt_getstring pkt7).p = some s →
        (s.length : Int) = wrap32 (get32 pkt7.data pkt7.savedpos)) ∧
      (sftp_pkt_getstring pkt7).pkt.savedpos =
        pkt7.savedpos + 4 + (wrap32 (get32 pkt7.data pkt7.savedpos)).toNat) ∧
    (sftp_pkt_getstring pkt7).pkt.savedpos ≤ pkt7.data.length) :=
  ⟨⟨by decide, by decide⟩, claim_C7_getstring_bounds pkt7 (by decide) (by decide)⟩

theorem wrap32_of_lt (c : Nat) (h : c < two31) : wrap32 c = (c : Int) := by
  rw [wrap32, if_pos h]

theorem wrap32_neg_of_ge (c : Nat) (hc : c < two32) (h : two31 ≤ c) :
    wrap32 c < 0 := by
  rw [wrap32, if_neg (by omega)]
  unfold two32 two31 at *
  omega

theorem wrap32_eq_iff (c k : Nat) (hc : c < two32) (hk : k < two31) :
    wrap32 c = (k : Int) ↔ c = k := by
  unfold wrap32 two31 two32 at *
  split <;> constructor <;> intro h <;> omega

/-- C6.  Status mapping: `fxp_got_status` parses the status code as a u32;
for codes 0..8 it stores the matching table message, for out-of-range codes
"unknown error code"; it records the code in the error channel (verbatim for
codes below 2^31, wrapped into a C `int` otherwise) and returns 1 iff the
code is 0, 0 iff the code is 1, and -1 otherwise; a non-STATUS packet type
or a truncated STATUS payload also yields -1 with errtype -1. -/
theorem claim_C6_status_mapping :
    (∀ pkt : Packet, pkt.type ≠ SSH_FXP_STATUS →
      fxp_got_status pkt = ⟨-1, -1, msgExpectedStatus⟩) ∧
    (∀ pkt : Packet, pkt.type = SSH_FXP_STATUS → sftp_pkt_getuint32 pkt = none →
      fxp_got_status pkt = ⟨-1, -1, msgMalformedStatus⟩) ∧
    (∀ (pkt : Packet) (c : Nat) (p1 : Packet),
      pkt.type = SSH_FXP_STATUS → sftp_pkt_getuint32 pkt = some (c, p1) →
      (fxp_got_status pkt).errtype = wrap32 c ∧
      (c < two31 → (fxp_got_status pkt).errtype = (c : Int)) ∧
      (c < 9 → (fxp_got_status pkt).message = fxp_messages.getD c msgEmpty) ∧
      (9 ≤ c → (fxp_got_status pkt).message = msgUnknownCode) ∧
      ((fxp_got_status pkt).ret = 1 ↔ c = 0) ∧
      ((fxp_got_status pkt).ret = 0 ↔ c = 1) ∧
      (c ≠ 0 → c ≠ 1 → (fxp_got_status pkt).ret = -1)) := by
  refine ⟨?_, ?_, ?_⟩
  · intro pkt h
    rw [fxp_got_status, if_pos h]
  · intro pkt ht hu
    rw [fxp_got_status, if_neg (by simp [ht]), hu]
  · intro pkt c p1 ht hu
    have hclt : c < two32 := by
      rw [sftp_pkt_getuint32] at hu
      by_cases h4 : pkt.data.length - pkt.savedpos < 4
      · rw [if_pos h4] at hu; exact absurd hu (by simp)
      · rw [if_neg h4] at hu
        have hc : c = get32 pkt.data pkt.savedpos := by
          have h' := (Option.some_injective _ hu).symm
          exact congrArg Prod.fst h'
        rw [hc]; exact get32_lt _ _
    have hres : fxp_got_status pkt =
        { ret := if wrap32 c = 0 then 1 else if wrap32 c = 1 then 0 else -1,
          errtype := wrap32 c,
          message := if wrap32 c < 0 ∨ 9 ≤ wrap32 c then msgUnknownCode
                     else fxp_messages.getD (wrap32 c).toNat msgEmpty } := by
      rw [fxp_got_status, if_neg (by simp [ht]), hu]
    have herr : (fxp_got_status pkt).errtype = wrap32 c := by rw [hres]
    have hmsg : (fxp_got_status pkt).message =
        (if wrap32 c < 0 ∨ 9 ≤ wrap32 c then msgUnknownCode
         else fxp_messages.getD (wrap32 c).toNat msgEmpty) := by rw [hres]
    have hret : (fxp_got_status pkt).ret =
        (if wrap32 c = 0 then 1 else if wrap32 c = 1 then 0 else -1) := by rw [hres]
    refine ⟨herr, ?_, ?_, ?_, ?_, ?_, ?_⟩
    · intro hc; rw [herr]; exact wrap32_of_lt c hc
    · intro hc
      have hsmall : c < two31 := by unfold two31; omega
      have he : wrap32 c = (c : Int) := wrap32_of_lt c hsmall
      rw [hmsg, he, if_neg (by push_neg; constructor <;> omega), Int.toNat_natCast]
    · intro hc
      have hcond : wrap32 c < 0 ∨ 9 ≤ wrap32 c := by
        by_cases hs : c < two31
        · right; rw [wrap32_of_lt c hs]; omega
        · left; exact wrap32_neg_of_ge c hclt (by omega)
      rw [hmsg, if_pos hcond]
    · rw [hret]
      by_cases h0 : wrap32 c = 0
      · rw [if_pos h0]
        have hc0 : c = 0 := (wrap32_eq_iff c 0 hclt (by decide)).mp h0
        simp [hc0]
      · rw [if_neg h0]
        by_cases h1 : wrap32 c = 1
        · rw [if_pos h1]
          have hc1 : c = 1 := (wrap32_eq_iff c 1 hclt (by decide)).mp h1
          constructor
          · intro h; exact absurd h (by decide)
          · intro h; omega
        · rw [if_neg h1]
          constructor
          · intro h; exact absurd h (by decide)
          · intro h
            exact absurd ((wrap32_eq_iff c 0 hclt (by decide)).mpr h) h0
    · rw [hret]
      by_cases h0 : wrap32 c = 0
      · rw [if_pos h0]
        have hc0 : c = 0 := (wrap32_eq_iff c 0 hclt (by decide)).mp h0
        constructor
        · intro h; exact absurd h (by decide)
        · intro h; omega
      · rw [if_neg h0]
        by_cases h1 : wrap32 c = 1
        · rw [if_pos h1]
          have hc1 : c = 1 := (wrap32_eq_iff c 1 hclt (by decide)).mp h1
          simp [hc1]
        · rw [if_neg h1]
          constructor
          · intro h; exact absurd h (by decide)
          · intro h
            exact absurd ((wrap32_eq_iff c 1 hclt (by decide)).mpr h) h1
    · intro hc0 hc1
      have h0 : ¬(wrap32 c = 0) := by
        intro h
        exact hc0 ((wrap32_eq_iff c 0 hclt (by decide)).mp (by exact_mod_cast h))
      have h1 : ¬(wrap32 c = 1) := by
        intro h
        exact hc1 ((wrap32_eq_iff c 1 hclt (by decide)).mp (by exact_mod_cast h))
      rw [hret, if_neg h0, if_neg h1]

/-- Closed witness for C6 at `pkt6` (status code 4), discharging the
hypotheses of the third clause of the status-mapping theorem. -/
theorem claim_C6_witness :
    (pkt6.type = SSH_FXP_STATUS ∧ sftp_pkt_getuint32 pkt6 = some (4, pkt6after)) ∧
    ((fxp_got_status pkt6).errtype = wrap32 4 ∧
     ((4 : Nat) < two31 → (fxp_got_status pkt6).errtype = ((4 : Nat) : Int)) ∧
     ((4 : Nat) < 9 → (fxp_got_status pkt6).message = fxp_messages.getD 4 msgEmpty) ∧
     (9 ≤ (4 : Nat) → (fxp_got_status pkt6).message = msgUnknownCode) ∧
     ((fxp_got_status pkt6).ret = 1 ↔ (4 : Nat) = 0) ∧
     ((fxp_got_status pkt6).ret = 0 ↔ (4 : Nat) = 1) ∧
     ((4 : Nat) ≠ 0 → (4 : Nat) ≠ 1 → (fxp_got_status pkt6).ret = -1)) :=
  ⟨⟨by decide, by decide⟩,
   claim_C6_status_mapping.2.2 pkt6 4 pkt6after (by decide) (by decide)⟩

theorem find234_eq_some {i : Nat} {reg : Registry} {rq : SftpRequest}
    (h : find234 i reg = some rq) : rq.id = i ∧ rq ∈ reg := by
  induction reg with
  | nil => exact absurd h (by simp [find234])
  | cons x xs ih =>
    rw [find234] at h
    by_cases hx : x.id = i
    · rw [if_pos hx] at h
      have : x = rq := Option.some_injective _ h
      subst this
      exact ⟨hx, List.mem_cons_self _ _⟩
    · rw [if_neg hx] at h
      obtain ⟨h1, h2⟩ := ih h
      exact ⟨h1, List.mem_cons_of_mem _ h2⟩

theorem find234_of_mem {i : Nat} {reg : Registry} {rq : SftpRequest}
    (hd : List.Pairwise (fun a b => a.id ≠ b.id) reg)
    (hm : rq ∈ reg) (hi : rq.id = i) : find234 i reg = some rq := by
  induction reg with
  | nil => exact absurd hm (by simp)
  | cons x xs ih =>
    rw [List.pairwise_cons] at hd
    rw [find234]
    rcases List.mem_cons.mp hm with heq | htail
    · subst heq
      rw [if_pos hi]
    · by_cases hx : x.id = i
      · exfalso
        exact hd.1 rq htail (by rw [hx, hi])
      · rw [if_neg hx]
        exact ih hd.2 htail

theorem mem_del234 {reg : Registry} {rq : SftpRequest}
    (hd : List.Pairwise (fun a b => a.id ≠ b.id) reg)
    (hm : rq ∈ reg) :
    ∀ x, x ∈ del234 rq reg ↔ (x ∈ reg ∧ x ≠ rq) := by
  induction reg with
  | nil => exact absurd hm (by simp)
  | cons a xs ih =>
    rw [List.pairwise_cons] at hd
    intro x
    rw [del234]
    by_cases ha : a.id = rq.id
    · rw [if_pos ha]
      have harq : a = rq := by
        rcases List.mem_cons.mp hm with heq | htail
        · exact heq.symm
        · exact absurd ha (hd.1 rq htail)
      subst harq
      constructor
      · intro hx
        refine ⟨List.mem_cons_of_mem _ hx, ?_⟩
        intro hxa
        subst hxa
        exact (hd.1 x hx) rfl
      · intro ⟨hx, hxa⟩
        rcases List.mem_cons.mp hx with h | h
        · exact absurd h hxa
        · exact h
    · rw [if_neg ha]
      have htail : rq ∈ xs := by
        rcases List.mem_cons.mp hm with heq | h
        · exact absurd (by rw [heq]) ha
        · exact h
      constructor
      · intro hx
        rcases List.mem_cons.mp hx with h | h
        · subst h
          exact ⟨List.mem_cons_self _ _, fun hc => ha (by rw [hc])⟩
        · obtain ⟨h1, h2⟩ := (ih hd.2 htail x).mp h
          exact ⟨List.mem_cons_of_mem _ h1, h2⟩
      · intro ⟨hx, hxrq⟩
        rcases List.mem_cons.mp hx with h | h
        · subst h; exact List.mem_cons_self _ _
        · exact List.mem_cons_of_mem _ ((ih hd.2 htail x).mpr ⟨h, hxrq⟩)

/-- C3 counterexample: on a packet whose payload is too short for the
request id, `sftp_find_request` returns no descriptor but does NOT free the
packet, contradicting the claim that the packet is freed on any failure. -/
theorem claim_C3_counterexample :
    (sftp_find_request [] (some pkt3short)).req = none ∧
    (sftp_find_request [] (some pkt3short)).freed = false := by decide

/-- C3 (amended).  Reply correlation: `sftp_find_request` reads the leading
u32 as the request id, looks it up, requires `registered = true`, removes
the descriptor from the registry and returns it; on failure no descriptor is
returned, and the packet is freed in the unknown-id and unregistered cases
but NOT when the packet is null or its payload is too short for the id. -/
theorem claim_C3_find_request (reg : Registry) (pkt : Packet)
    (hdistinct : List.Pairwise (fun a b => a.id ≠ b.id) reg) :
    (sftp_find_request reg none).req = none ∧
    (sftp_find_request reg none).freed = false ∧
    (sftp_pkt_getuint32 pkt = none →
      (sftp_find_request reg (some pkt)).req = none ∧
      (sftp_find_request reg (some pkt)).freed = false ∧
      (sftp_find_request reg (some pkt)).reg = reg ∧
      (sftp_find_request reg (some pkt)).errmsg = some msgInvalidPacket) ∧
    (∀ (i : Nat) (pkt1 : Packet), sftp_pkt_getuint32 pkt = some (i, pkt1) →
      ((∀ rq, rq ∈ reg → rq.id ≠ i ∨ rq.registered = false) →
        (sftp_find_request reg (some pkt)).req = none ∧
        (sftp_find_request reg (some pkt)).freed = true ∧
        (sftp_find_request reg (some pkt)).reg = reg ∧
        (sftp_find_request reg (some pkt)).errmsg = some msgIdMismatch) ∧
      (∀ rq, rq ∈ reg → rq.id = i → rq.registered = true →
        (sftp_find_request reg (some pkt)).req = some rq ∧
        (sftp_find_request reg (some pkt)).freed = false ∧
        (∀ x, x ∈ (sftp_find_request reg (some pkt)).reg ↔ (x ∈ reg ∧ x ≠ rq)) ∧
        (sftp_find_request reg (some pkt)).pkt = some pkt1)) := by
  refine ⟨rfl, rfl, ?_, ?_⟩
  · intro hu
    rw [sftp_find_request, hu]
    exact ⟨rfl, rfl, rfl, rfl⟩
  · intro i pkt1 hu
    constructor
    · intro hnone
      cases hfind : find234 i reg with
      | none =>
        have hres : sftp_find_request reg (some pkt) =
            ⟨none, reg, some pkt1, true, some msgIdMismatch⟩ := by
          rw [sftp_find_request, hu]
          dsimp only
          rw [hfind]
        rw [hres]
        exact ⟨rfl, rfl, rfl, rfl⟩
      | some rq =>
        obtain ⟨hid, hmem⟩ := find234_eq_some hfind
        have hunreg : rq.registered = false := by
          rcases hnone rq hmem with h | h
          · exact absurd hid h
          · exact h
        have hres : sftp_find_request reg (some pkt) =
            ⟨none, reg, some pkt1, true, some msgIdMismatch⟩ := by
          rw [sftp_find_request, hu]
          dsimp only
          rw [hfind]
          dsimp only
          rw [if_neg (by simp [hunreg])]
        rw [hres]
        exact ⟨rfl, rfl, rfl, rfl⟩
    · intro rq hmem hid hregd
      have hfind : find234 i reg = some rq := find234_of_mem hdistinct hmem hid
      have hres : sftp_find_request reg (some pkt) =
          ⟨some rq, del234 rq reg, some pkt1, false, none⟩ := by
        rw [sftp_find_request, hu]
        dsimp only
        rw [hfind]
        dsimp only
        rw [if_pos hregd]
      rw [hres]
      exact ⟨rfl, rfl, mem_del234 hdistinct hmem, rfl⟩

/-- Closed witness for C3: the success path at a concrete registered id. -/
theorem claim_C3_witness :
    (List.Pairwise (fun a b => a.id ≠ b.id) reg3 ∧
     sftp_pkt_getuint32 pkt3ok = some (256, pkt3okAfter) ∧
     (⟨256, true, none⟩ : SftpRequest) ∈ reg3) ∧
    ((sftp_find_request reg3 (some pkt3ok)).req = some ⟨256, true, none⟩ ∧
     (sftp_find_request reg3 (some pkt3ok)).freed = false ∧
     (sftp_find_request reg3 (some pkt3ok)).pkt = some pkt3okAfter) := by
  have h := ((claim_C3_find_request reg3 pkt3ok (by decide)).2.2.2 256 pkt3okAfter
      (by decide)).2 ⟨256, true, none⟩ (by decide) (by decide) (by decide)
  exact ⟨⟨by decide, by decide, by decide⟩, ⟨h.1, h.2.1, h.2.2.2⟩⟩

theorem lowShift_top : lowShift (two32 - 1) = 0 := by
  unfold lowShift
  rw [if_pos rfl]

theorem lowShift_of_ne (low : Nat) (h : low ≠ two32 - 1) :
    lowShift low = low + 1 := by
  unfold lowShift
  rw [if_neg h]

theorem allocLoop_spec (reg : Registry) (hn : reg.length + 2 ≤ two31) :
    ∀ (fuel low high : Nat), AllocInv reg low high →
      high - lowShift low < fuel →
      AllocPost reg (allocLoop reg fuel low high) := by
  intro fuel
  induction fuel with
  | zero =>
    intro low high _ hf
    omega
  | succ fuel ih =>
    intro low high hinv hf
    obtain ⟨hls, hhn, hlow, hhigh⟩ := hinv
    rw [allocLoop]
    rcases hlow with hl | ⟨hln, hlP⟩
    · -- low = (unsigned)-1: no confirmed prefix element yet
      subst hl
      rw [lowShift_top] at hls hf
      have hS : (high + two32 - (two32 - 1)) % two32 = high + 1 := by
        unfold two32 two31 at *
        omega
      by_cases hc : 1 < (high + two32 - (two32 - 1)) % two32
      · rw [if_pos hc]
        rw [hS] at hc
        have hM : (high + (two32 - 1)) % two32 = high - 1 := by
          unfold two32 two31 at *
          omega
        rw [hM]
        have hmidlt : (high - 1) / 2 < high := by omega
        have hmidn : (high - 1) / 2 < reg.length := by omega
        have hmidne : (high - 1) / 2 ≠ two32 - 1 := by
          unfold two32 two31 at *
          omega
        by_cases hP : idAt reg ((high - 1) / 2) = (high - 1) / 2 + REQUEST_ID_OFFSET
        · rw [if_pos hP]
          apply ih
          · refine ⟨?_, hhn, Or.inr ⟨hmidn, hP⟩, hhigh⟩
            rw [lowShift_of_ne _ hmidne]
            omega
          · rw [lowShift_of_ne _ hmidne]
            omega
        · rw [if_neg hP]
          apply ih
          · refine ⟨?_, by omega, Or.inl rfl, Or.inr hP⟩
            rw [lowShift_top]
            omega
          · rw [lowShift_top]
            omega
      · rw [if_neg hc]
        rw [hS] at hc
        have hh0 : high = 0 := by omega
        refine ⟨Or.inl rfl, ?_, ?_⟩
        · rw [lowShift_top]; omega
        · rw [lowShift_top, ← hh0]
          exact hhigh
    · -- low is a confirmed prefix position
      have hlne : low ≠ two32 - 1 := by
        unfold two32 two31 at *
        omega
      rw [lowShift_of_ne low hlne] at hls hf
      have hS : (high + two32 - low) % two32 = high - low := by
        unfold two32 two31 at *
        omega
      by_cases hc : 1 < (high + two32 - low) % two32
      · rw [if_pos hc]
        rw [hS] at hc
        have hM : (high + low) % two32 = high + low := by
          unfold two32 two31 at *
          omega
        rw [hM]
        have hmidlb : low + 1 ≤ (high + low) / 2 := by omega
        have hmidlt : (high + low) / 2 < high := by omega
        have hmidn : (high + low) / 2 < reg.length := by omega
        have hmidne : (high + low) / 2 ≠ two32 - 1 := by
          unfold two32 two31 at *
          omega
        by_cases hP : idAt reg ((high + low) / 2) = (high + low) / 2 + REQUEST_ID_OFFSET
        · rw [if_pos hP]
          apply ih
          · refine ⟨?_, hhn, Or.inr ⟨hmidn, hP⟩, hhigh⟩
            rw [lowShift_of_ne _ hmidne]
            omega
          · rw [lowShift_of_ne _ hmidne]
            omega
        · rw [if_neg hP]
          apply ih
          · refine ⟨?_, by omega, Or.inr ⟨hln, hlP⟩, Or.inr hP⟩
            rw [lowShift_of_ne low hlne]
            omega
          · rw [lowShift_of_ne low hlne]
            omega
      · rw [if_neg hc]
        rw [hS] at hc
        have hexit : high = low + 1 := by omega
        refine ⟨Or.inr ⟨hln, hlP⟩, ?_, ?_⟩
        · rw [lowShift_of_ne low hlne]; omega
        · rw [lowShift_of_ne low hlne, ← hexit]
          exact hhigh

theorem idAt_eq (reg : Registry) (k : Nat) (h : k < reg.length) :
    idAt reg k = (reg.get ⟨k, h⟩).id := by
  unfold idAt
  rw [List.getD_eq_getElem?_getD, List.getElem?_eq_getElem h]
  rfl

theorem idAt_strict (reg : Registry)
    (hp : List.Pairwise (fun a b => a.id < b.id) reg) :
    ∀ i j, i < j → ∀ _hj : j < reg.length, idAt reg i < idAt reg j := by
  intro i j hij hj
  have hi : i < reg.length := lt_trans hij hj
  rw [idAt_eq reg i hi, idAt_eq reg j hj]
  exact List.pairwise_iff_get.mp hp ⟨i, hi⟩ ⟨j, hj⟩ hij

theorem idAt_lower (reg : Registry)
    (hp : List.Pairwise (fun a b => a.id < b.id) reg)
    (hge : ∀ r ∈ reg, REQUEST_ID_OFFSET ≤ r.id) :
    ∀ k, k < reg.length → REQUEST_ID_OFFSET + k ≤ idAt reg k := by
  intro k
  induction k with
  | zero =>
    intro h
    rw [idAt_eq reg 0 h]
    have := hge (reg.get ⟨0, h⟩) (List.get_mem reg 0 h)
    omega
  | succ k ih =>
    intro h
    have hk : k < reg.length := by omega
    have h1 := ih hk
    have h2 := idAt_strict reg hp k (k + 1) (by omega) h
    omega

theorem idAt_gap (reg : Registry)
    (hp : List.Pairwise (fun a b => a.id < b.id) reg) :
    ∀ d j, j + d < reg.length → idAt reg j + d ≤ idAt reg (j + d) := by
  intro d
  induction d with
  | zero => intro j h; simp
  | succ d ih =>
    intro j h
    have h3 : j + (d + 1) = j + d + 1 := by omega
    rw [h3] at h ⊢
    have h1 := ih j (by omega)
    have h2 := idAt_strict reg hp (j + d) (j + d + 1) (by omega) h
    omega

theorem prefix_filled (reg : Registry)
    (hp : List.Pairwise (fun a b => a.id < b.id) reg)
    (hge : ∀ r ∈ reg, REQUEST_ID_OFFSET ≤ r.id)
    {m : Nat} (hm : m < reg.length)
    (hPm : idAt reg m = m + REQUEST_ID_OFFSET) :
    ∀ k, k ≤ m → idAt reg k = k + REQUEST_ID_OFFSET := by
  intro k hk
  have h1 := idAt_lower reg hp hge k (by omega)
  have h2 := idAt_gap reg hp (m - k) k (by omega)
  rw [show k + (m - k) = m by omega] at h2
  omega

theorem mem_regIds_iff (reg : Registry) (x : Nat) :
    x ∈ regIds reg ↔ ∃ k, ∃ _h : k < reg.length, idAt reg k = x := by
  unfold regIds
  rw [List.mem_map]
  constructor
  · intro ⟨r, hr, hid⟩
    obtain ⟨⟨k, hk⟩, hget⟩ := List.mem_iff_get.mp hr
    refine ⟨k, hk, ?_⟩
    rw [idAt_eq reg k hk, hget, hid]
  · intro ⟨k, hk, hid⟩
    refine ⟨reg.get ⟨k, hk⟩, List.get_mem reg k hk, ?_⟩
    rw [← idAt_eq reg k hk, hid]

theorem regIds_cons (a : SftpRequest) (xs : Registry) :
    regIds (a :: xs) = a.id :: regIds xs := rfl

theorem mem_regIds_add234 (r : SftpRequest) :
    ∀ reg : Registry, r.id ∉ regIds reg →
      ∀ x, x ∈ regIds (add234 r reg) ↔ x = r.id ∨ x ∈ regIds reg := by
  intro reg
  induction reg with
  | nil =>
    intro _ x
    simp [add234, regIds]
  | cons a xs ih =>
    intro hnotin x
    rw [regIds_cons] at hnotin
    have hna : r.id ≠ a.id := by
      intro h
      exact hnotin (by rw [h]; exact List.mem_cons_self _ _)
    have hnxs : r.id ∉ regIds xs := by
      intro h
      exact hnotin (List.mem_cons_of_mem _ h)
    rw [add234]
    by_cases h1 : r.id < a.id
    · rw [if_pos h1]
      simp only [regIds_cons, List.mem_cons]
    · rw [if_neg h1, if_neg hna]
      simp only [regIds_cons, List.mem_cons]
      rw [ih hnxs x]
      tauto

/-- First-fit correctness of `sftp_alloc_request` over any well-formed
registry: the fresh id is the least unused id at or above the offset, and
the returned registry holds exactly the old ids plus the fresh one. -/
theorem alloc_general (reg : Registry)
    (hp : List.Pairwise (fun a b => a.id < b.id) reg)
    (hge : ∀ r ∈ reg, REQUEST_ID_OFFSET ≤ r.id)
    (hn : reg.length + 2 ≤ two31) :
    REQUEST_ID_OFFSET ≤ (sftp_alloc_request reg).1.id ∧
    (sftp_alloc_request reg).1.id ∉ regIds reg ∧
    (∀ m, REQUEST_ID_OFFSET ≤ m → m ∉ regIds reg →
      (sftp_alloc_request reg).1.id ≤ m) ∧
    (∀ x, x ∈ regIds (sftp_alloc_request reg).2 ↔
      x = (sftp_alloc_request reg).1.id ∨ x ∈ regIds reg) := by
  have hpost := allocLoop_spec reg hn (reg.length + 2) (two32 - 1) reg.length
    ⟨by rw [lowShift_top]; omega, le_refl _, Or.inl rfl, Or.inl rfl⟩
    (by rw [lowShift_top]; omega)
  set l := allocLoop reg (reg.length + 2) (two32 - 1) reg.length with hl
  obtain ⟨hlcl, hhle, hhcl⟩ := hpost
  have hfst : (sftp_alloc_request reg).1 =
      ⟨(l + 1 + REQUEST_ID_OFFSET) % two32, false, none⟩ := rfl
  have hsnd : (sftp_alloc_request reg).2 =
      add234 ⟨(l + 1 + REQUEST_ID_OFFSET) % two32, false, none⟩ reg := rfl
  have hid : (sftp_alloc_request reg).1.id = lowShift l + REQUEST_ID_OFFSET := by
    rw [hfst]
    show (l + 1 + REQUEST_ID_OFFSET) % two32 = lowShift l + REQUEST_ID_OFFSET
    rcases hlcl with h0 | ⟨hlt, _⟩
    · rw [h0, lowShift_top]
      unfold two32 REQUEST_ID_OFFSET
      omega
    · rw [lowShift_of_ne l (by unfold two32 two31 at *; omega)]
      apply Nat.mod_eq_of_lt
      unfold two32 two31 REQUEST_ID_OFFSET at *
      omega
  -- every position below the exit point holds exactly the contiguous ids
  have hpref : ∀ k, k < lowShift l → idAt reg k = k + REQUEST_ID_OFFSET := by
    intro k hkh
    rcases hlcl with h0 | ⟨hlt, hPl⟩
    · rw [h0, lowShift_top] at hkh
      omega
    · rw [lowShift_of_ne l (by unfold two32 two31 at *; omega)] at hkh
      exact prefix_filled reg hp hge hlt hPl k (by omega)
  have hnotmem : (sftp_alloc_request reg).1.id ∉ regIds reg := by
    rw [hid]
    intro hmem
    obtain ⟨k, hk, hkid⟩ := (mem_regIds_iff reg _).mp hmem
    have hklow := idAt_lower reg hp hge k hk
    have hkle : k ≤ lowShift l := by omega
    rcases Nat.lt_or_ge k (lowShift l) with hlt | hge2
    · rw [hpref k hlt] at hkid
      omega
    · have hkeq : k = lowShift l := by omega
      rcases hhcl with hn2 | hne
      · omega
      · rw [hkeq] at hkid
        exact hne hkid
  refine ⟨by rw [hid]; omega, hnotmem, ?_, ?_⟩
  · intro m hm hnotin
    by_contra hlt
    push_neg at hlt
    rw [hid] at hlt
    apply hnotin
    refine (mem_regIds_iff reg m).mpr ⟨m - REQUEST_ID_OFFSET, ?_, ?_⟩
    · unfold REQUEST_ID_OFFSET at *
      omega
    · rw [hpref (m - REQUEST_ID_OFFSET) (by omega)]
      omega
  · rw [hsnd]
    intro x
    have := mem_regIds_add234 ⟨(l + 1 + REQUEST_ID_OFFSET) % two32, false, none⟩ reg
      (by exact hfst ▸ hnotmem) x
    rw [this]
    rw [show ((⟨(l + 1 + REQUEST_ID_OFFSET) % two32, false, none⟩ : SftpRequest)).id
        = (sftp_alloc_request reg).1.id from by rw [hfst]]

theorem prefixReg_length (n : Nat) : (prefixReg n).length = n := by
  simp [prefixReg]

theorem prefixReg_pairwise (n : Nat) :
    List.Pairwise (fun a b => a.id < b.id) (prefixReg n) := by
  unfold prefixReg
  rw [List.pairwise_map]
  exact (List.pairwise_lt_range n).imp (fun hab => Nat.add_lt_add_left hab _)

theorem prefixReg_ge (n : Nat) :
    ∀ r ∈ prefixReg n, REQUEST_ID_OFFSET ≤ r.id := by
  intro r hr
  obtain ⟨j, _hj, rfl⟩ := List.mem_map.mp hr
  exact Nat.le_add_right _ _

theorem mem_regIds_prefixReg (n x : Nat) :
    x ∈ regIds (prefixReg n) ↔ ∃ j, j < n ∧ x = REQUEST_ID_OFFSET + j := by
  unfold regIds prefixReg
  rw [List.map_map, List.mem_map]
  constructor
  · intro ⟨j, hj, hx⟩
    exact ⟨j, List.mem_range.mp hj, hx.symm⟩
  · intro ⟨j, hj, hx⟩
    exact ⟨j, List.mem_range.mpr hj, hx.symm⟩

theorem prefixReg_mem (n k : Nat) (hk : k < n) :
    (⟨REQUEST_ID_OFFSET + k, true, none⟩ : SftpRequest) ∈ prefixReg n :=
  List.mem_map.mpr ⟨k, List.mem_range.mpr hk, rfl⟩

theorem del234_sublist (r : SftpRequest) :
    ∀ reg : Registry, List.Sublist (del234 r reg) reg := by
  intro reg
  induction reg with
  | nil => simp [del234]
  | cons x xs ih =>
    rw [del234]
    by_cases h : x.id = r.id
    · rw [if_pos h]
      exact List.sublist_cons_self x xs
    · rw [if_neg h]
      exact List.Sublist.cons₂ x ih

theorem mem_regIds_del_prefixReg (n k : Nat) (hk : k < n) (y : Nat) :
    y ∈ regIds (del234 ⟨REQUEST_ID_OFFSET + k, true, none⟩ (prefixReg n)) ↔
      ∃ j, j < n ∧ j ≠ k ∧ y = REQUEST_ID_OFFSET + j := by
  have hdist : List.Pairwise (fun a b => a.id ≠ b.id) (prefixReg n) :=
    (prefixReg_pairwise n).imp (fun hab => Nat.ne_of_lt hab)
  have hmem := prefixReg_mem n k hk
  unfold regIds
  constructor
  · intro hy
    obtain ⟨r, hr, hid⟩ := List.mem_map.mp hy
    rw [mem_del234 hdist hmem r] at hr
    obtain ⟨hrmem, hrne⟩ := hr
    obtain ⟨j, hj, rfl⟩ := List.mem_map.mp hrmem
    refine ⟨j, List.mem_range.mp hj, ?_, hid.symm⟩
    intro hjk
    subst hjk
    exact hrne rfl
  · intro ⟨j, hj, hjk, hy⟩
    apply List.mem_map.mpr
    refine ⟨⟨REQUEST_ID_OFFSET + j, true, none⟩, ?_, hy.symm⟩
    rw [mem_del234 hdist hmem]
    refine ⟨prefixReg_mem n j hj, ?_⟩
    intro he
    have hij : REQUEST_ID_OFFSET + j = REQUEST_ID_OFFSET + k :=
      congrArg SftpRequest.id he
    omega

/-- C1.  First-fit id allocation: on any reachable registry (ids strictly
sorted, all at or above `REQUEST_ID_OFFSET`, realistically sized),
`sftp_alloc_request` returns the smallest id ≥ `REQUEST_ID_OFFSET` absent
from the registry and inserts it; in particular on the contiguous prefix
`{256,…,256+n-1}` it returns `256+n`, and on that prefix with `256+k`
removed (k < n) it returns exactly `256+k`. -/
theorem claim_C1_first_fit :
    (∀ reg : Registry,
      List.Pairwise (fun a b => a.id < b.id) reg →
      (∀ r ∈ reg, REQUEST_ID_OFFSET ≤ r.id) →
      reg.length + 2 ≤ two31 →
      REQUEST_ID_OFFSET ≤ (sftp_alloc_request reg).1.id ∧
      (sftp_alloc_request reg).1.id ∉ regIds reg ∧
      (∀ m, REQUEST_ID_OFFSET ≤ m → m ∉ regIds reg →
        (sftp_alloc_request reg).1.id ≤ m) ∧
      (∀ x, x ∈ regIds (sftp_alloc_request reg).2 ↔
        x = (sftp_alloc_request reg).1.id ∨ x ∈ regIds reg)) ∧
    (∀ n : Nat, n + 2 ≤ two31 →
      (sftp_alloc_request (prefixReg n)).1.id = REQUEST_ID_OFFSET + n) ∧
    (∀ n k : Nat, n + 2 ≤ two31 → k < n →
      (sftp_alloc_request
        (del234 ⟨REQUEST_ID_OFFSET + k, true, none⟩ (prefixReg n))).1.id =
        REQUEST_ID_OFFSET + k) := by
  refine ⟨fun reg hp hge hn => alloc_general reg hp hge hn, ?_, ?_⟩
  · intro n hn
    obtain ⟨hge2, hnot, hmin, _⟩ := alloc_general (prefixReg n)
      (prefixReg_pairwise n) (prefixReg_ge n)
      (by rw [prefixReg_length]; exact hn)
    have hle : (sftp_alloc_request (prefixReg n)).1.id ≤ REQUEST_ID_OFFSET + n := by
      apply hmin
      · exact Nat.le_add_right _ _
      · rw [mem_regIds_prefixReg]
        rintro ⟨j, hj, hje⟩
        omega
    have hge3 : REQUEST_ID_OFFSET + n ≤ (sftp_alloc_request (prefixReg n)).1.id := by
      by_contra hlt
      push_neg at hlt
      apply hnot
      rw [mem_regIds_prefixReg]
      exact ⟨(sftp_alloc_request (prefixReg n)).1.id - REQUEST_ID_OFFSET,
        by omega, by omega⟩
    omega
  · intro n k hn hk
    have hsub := del234_sublist ⟨REQUEST_ID_OFFSET + k, true, none⟩ (prefixReg n)
    have hp' := List.Pairwise.sublist hsub (prefixReg_pairwise n)
    have hge' : ∀ r ∈ del234 ⟨REQUEST_ID_OFFSET + k, true, none⟩ (prefixReg n),
        REQUEST_ID_OFFSET ≤ r.id :=
      fun r hr => prefixReg_ge n r (hsub.subset hr)
    have hn' : (del234 ⟨REQUEST_ID_OFFSET + k, true, none⟩ (prefixReg n)).length + 2
        ≤ two31 := by
      have hL := hsub.length_le
      rw [prefixReg_length] at hL
      omega
    obtain ⟨hge2, hnot, hmin, _⟩ := alloc_general _ hp' hge' hn'
    have hle : (sftp_alloc_request
        (del234 ⟨REQUEST_ID_OFFSET + k, true, none⟩ (prefixReg n))).1.id ≤
        REQUEST_ID_OFFSET + k := by
      apply hmin
      · exact Nat.le_add_right _ _
      · rw [mem_regIds_del_prefixReg n k hk]
        rintro ⟨j, hj, hjk, hje⟩
        omega
    have hge3 : REQUEST_ID_OFFSET + k ≤ (sftp_alloc_request
        (del234 ⟨REQUEST_ID_OFFSET + k, true, none⟩ (prefixReg n))).1.id := by
      by_contra hlt
      push_neg at hlt
      apply hnot
      rw [mem_regIds_del_prefixReg n k hk]
      refine ⟨(sftp_alloc_request
        (del234 ⟨REQUEST_ID_OFFSET + k, true, none⟩ (prefixReg n))).1.id -
          REQUEST_ID_OFFSET, by omega, by omega, by omega⟩
    omega

/-- Closed witness for C1: from the prefix `{256, 257}` with 256 removed,
the next allocation returns exactly 256. -/
theorem claim_C1_witness :
    ((2 : Nat) + 2 ≤ two31 ∧ (0 : Nat) < 2) ∧
    (sftp_alloc_request
      (del234 ⟨REQUEST_ID_OFFSET + 0, true, none⟩ (prefixReg 2))).1.id =
      REQUEST_ID_OFFSET + 0 :=
  ⟨⟨by decide, by decide⟩, claim_C1_first_fit.2.2 2 0 (by decide) (by decide)⟩

theorem getD_modify_of_lt (f : Req → Req) (k : Nat) (l : List Req)
    (hk : k < l.length) :
    (List.modify f k l).getD k default = f (l.getD k default) := by
  rw [List.getD_eq_getElem?_getD, List.getD_eq_getElem?_getD,
      List.getElem?_modify_eq, List.getElem?_eq_getElem hk]
  rfl

theorem downloadGotpktAfter_filesize (x : FxpXfer) (k : Nat) (retlen : Int)
    (hshort : retlen < (x.queue.getD k default).len) :
    (downloadGotpktAfter x k retlen).1.filesize =
      min x.filesize (((x.queue.getD k default).offset +
        (if retlen < 0 then 0 else retlen.toNat)) % two64) := by
  simp only [downloadGotpktAfter]
  have hfin : ∀ y : FxpXfer,
      ((if y.filesize < y.furthestdata
        then ({ y with err := true }, (-1 : Int)) else (y, (1 : Int))).1).filesize
        = y.filesize := by
    intro y
    split
    · rfl
    · rfl
  rw [hfin, if_pos hshort]
  by_cases h4 : retlen > 0 ∧ x.furthestdata < (x.queue.getD k default).offset
  · rw [if_pos h4]
    dsimp only
    by_cases h5 : ((x.queue.getD k default).offset +
        (if retlen < 0 then 0 else retlen.toNat)) % two64 < x.filesize
    · rw [if_pos h5]
      exact (Nat.min_eq_right (Nat.le_of_lt h5)).symm
    · rw [if_neg h5]
      have hle : x.filesize ≤ ((x.queue.getD k default).offset +
          (if retlen < 0 then 0 else retlen.toNat)) % two64 := by omega
      exact (Nat.min_eq_left hle).symm
  · rw [if_neg h4]
    by_cases h5 : ((x.queue.getD k default).offset +
        (if retlen < 0 then 0 else retlen.toNat)) % two64 < x.filesize
    · rw [if_pos h5]
      exact (Nat.min_eq_right (Nat.le_of_lt h5)).symm
    · rw [if_neg h5]
      have hle : x.filesize ≤ ((x.queue.getD k default).offset +
          (if retlen < 0 then 0 else retlen.toNat)) % two64 := by omega
      exact (Nat.min_eq_left hle).symm

/-- C4.  Short-read filesize inference: a READ reply for the queue entry at
position `k` that returns `r < R` bytes — a genuine returned length
(`0 ≤ r`) or an EOF status (`r = -1` with the error channel at `SSH_FX_EOF`)
— sets believed-filesize to `min(believed-filesize, X + max(0, r))` (in the
wrapping uint64 arithmetic of the source), hence afterwards
`believed-filesize ≤ X + max(0, r)`. -/
theorem claim_C4_short_read_filesize (x : FxpXfer) (k : Nat) (retlen errtype : Int)
    (hk : k < x.queue.length)
    (hshort : retlen < (x.queue.getD k default).len)
    (hok : 0 ≤ retlen ∨ (retlen < 0 ∧ errtype = 1)) :
    (xfer_download_gotpkt_core x k retlen errtype).1.filesize =
      min x.filesize
        (((x.queue.getD k default).offset +
          (if retlen < 0 then 0 else retlen.toNat)) % two64) ∧
    (xfer_download_gotpkt_core x k retlen errtype).1.filesize ≤
      ((x.queue.getD k default).offset +
        (if retlen < 0 then 0 else retlen.toNat)) % two64 := by
  have hmain : (xfer_download_gotpkt_core x k retlen errtype).1.filesize =
      min x.filesize
        (((x.queue.getD k default).offset +
          (if retlen < 0 then 0 else retlen.toNat)) % two64) := by
    simp only [xfer_download_gotpkt_core]
    by_cases hA : (retlen < 0 ∧ errtype = 1) ∨ retlen = 0
    · simp only [if_pos hA]
      have hq1 : k < (x.queue.modify (fun rr => { rr with retlen := retlen }) k).length := by
        rw [List.length_modify]; exact hk
      have hq2 : k < ((x.queue.modify (fun rr => { rr with retlen := retlen }) k).modify
          (fun rr => { rr with complete := -1 }) k).length := by
        rw [List.length_modify, List.length_modify]; exact hk
      have hget : (((x.queue.modify (fun rr => { rr with retlen := retlen }) k).modify
          (fun rr => { rr with complete := -1 }) k).modify
          (fun rr => { rr with complete := 1 }) k).getD k default =
          { x.queue.getD k default with retlen := retlen, complete := 1 } := by
        rw [getD_modify_of_lt _ _ _ hq2, getD_modify_of_lt _ _ _ hq1,
            getD_modify_of_lt _ _ _ hk]
      rw [downloadGotpktAfter_filesize _ _ _ (by rw [hget]; exact hshort)]
      rw [hget]
    · simp only [if_neg hA]
      have hpos : ¬retlen < 0 := by
        rcases hok with h | h
        · omega
        · exact absurd (Or.inl h) hA
      simp only [if_neg hpos]
      have hq1 : k < (x.queue.modify (fun rr => { rr with retlen := retlen }) k).length := by
        rw [List.length_modify]; exact hk
      have hget : ((x.queue.modify (fun rr => { rr with retlen := retlen }) k).modify
          (fun rr => { rr with complete := 1 }) k).getD k default =
          { x.queue.getD k default with retlen := retlen, complete := 1 } := by
        rw [getD_modify_of_lt _ _ _ hq1, getD_modify_of_lt _ _ _ hk]
      rw [downloadGotpktAfter_filesize _ _ _ (by rw [hget]; exact hshort)]
      rw [hget]
      dsimp only
      rw [if_neg hpos]
  exact ⟨hmain, by rw [hmain]; exact Nat.min_le_right _ _⟩

/-- Closed witness for C4: a 100-byte short read at offset 0 drops
believed-filesize from 2^64-1 to 100. -/
theorem claim_C4_witness :
    ((0 : Nat) < xferC4.queue.length ∧
     (100 : Int) < (xferC4.queue.getD 0 default).len ∧
     ((0 : Int) ≤ 100 ∨ ((100 : Int) < 0 ∧ (0 : Int) = 1))) ∧
    ((xfer_download_gotpkt_core xferC4 0 100 0).1.filesize =
      min xferC4.filesize
        (((xferC4.queue.getD 0 default).offset +
          (if (100 : Int) < 0 then 0 else (100 : Int).toNat)) % two64) ∧
     (xfer_download_gotpkt_core xferC4 0 100 0).1.filesize ≤
      ((xferC4.queue.getD 0 default).offset +
        (if (100 : Int) < 0 then 0 else (100 : Int).toNat)) % two64) :=
  ⟨⟨by decide, by decide, by decide⟩,
   claim_C4_short_read_filesize xferC4 0 100 0 (by decide) (by decide)
     (by decide)⟩

/-- C2 (code bug).  An `SSH_FX_EOF` READ reply sets the eof flag, but the
`rr->complete = -1` failed mark is immediately overwritten by the
unconditional `rr->complete = 1` (the upstream `else` is missing), so
`xfer_download_data` hands that req's buffer back to the caller as data —
with returned length -1 — instead of skipping it. -/
theorem claim_C2_eof_req_delivered :
    xfer_download_gotpkt 0 regC2 xferC2 (some pktC2) = some ([], xferC2out, 1) ∧
    xferC2out.eof = true ∧
    (xferC2out.queue.getD 0 default).complete = 1 ∧
    (xfer_download_data xferC2out).2 = some (7, -1) ∧
    (xfer_download_data xferC2out).1.queue = [] := by
  refine ⟨by decide, by decide, by decide, by decide, by decide⟩

theorem download_queue_props :
    ∀ (n : Nat) (x : FxpXfer), (x.req_maxsize - x.req_totalsize).toNat = n →
      (xfer_download_queue x).req_maxsize = x.req_maxsize ∧
      ((xfer_download_queue x).req_totalsize ≤ x.req_totalsize ∨
       (xfer_download_queue x).req_totalsize ≤ x.req_maxsize + 32767) ∧
      (∀ rr ∈ (xfer_download_queue x).queue, rr ∈ x.queue ∨ rr.len = 32768) := by
  intro n
  induction n using Nat.strong_induction_on with
  | _ n ih =>
    intro x hx
    rw [xfer_download_queue]
    by_cases hc : x.req_totalsize < x.req_maxsize ∧ x.eof = false ∧ x.err = false
    · rw [dif_pos hc]
      have hm : (({ x with
          queue := x.queue ++ [{ buffer := x.offset, len := 32768, retlen := 0,
                                 complete := 0, offset := x.offset }],
          offset := uint64_add32 x.offset 32768,
          req_totalsize := x.req_totalsize + 32768 } : FxpXfer).req_maxsize -
          ({ x with
          queue := x.queue ++ [{ buffer := x.offset, len := 32768, retlen := 0,
                                 complete := 0, offset := x.offset }],
          offset := uint64_add32 x.offset 32768,
          req_totalsize := x.req_totalsize + 32768 } : FxpXfer).req_totalsize).toNat < n := by
        dsimp only
        omega
      obtain ⟨ha, hb, hq⟩ := ih _ hm _ rfl
      refine ⟨by rw [ha], ?_, ?_⟩
      · rcases hb with h | h
        · right
          dsimp only at h
          omega
        · right
          dsimp only at h
          exact h
      · intro rr hrr
        rcases hq rr hrr with h | h
        · rcases List.mem_append.mp h with h2 | h2
          · exact Or.inl h2
          · right
            have h3 := List.mem_singleton.mp h2
            rw [h3]
        · exact Or.inr h
    · rw [dif_neg hc]
      exact ⟨rfl, Or.inl (le_refl _), fun rr h => Or.inl h⟩

theorem download_data_loop_le :
    ∀ (q : List Req) (t : Int), (∀ rr ∈ q, (0 : Int) ≤ rr.len) →
      (download_data_loop q t).2.2 ≤ t ∧
      (∀ rr ∈ (download_data_loop q t).2.1, rr ∈ q) := by
  intro q
  induction q with
  | nil =>
    intro t _
    exact ⟨le_refl t, fun rr h => h⟩
  | cons r0 rest ih =>
    intro t hlen
    rw [download_data_loop]
    by_cases hc : r0.complete ≠ 0
    · rw [if_pos hc]
      by_cases hp : r0.complete > 0
      · rw [if_pos hp]
        have h0 := hlen r0 (List.mem_cons_self _ _)
        refine ⟨by dsimp only; omega, ?_⟩
        intro rr hrr
        exact List.mem_cons_of_mem _ hrr
      · rw [if_neg hp]
        obtain ⟨h1, h2⟩ := ih (t - r0.len)
          (fun r h => hlen r (List.mem_cons_of_mem _ h))
        have h0 := hlen r0 (List.mem_cons_self _ _)
        refine ⟨by omega, ?_⟩
        intro rr hrr
        exact List.mem_cons_of_mem _ (h2 rr hrr)
    · rw [if_neg hc]
      exact ⟨le_refl t, fun rr h => h⟩

theorem mem_modify_len (f : Req → Req) (hf : ∀ r, (f r).len = r.len)
    (k : Nat) (l : List Req) :
    ∀ rr ∈ List.modify f k l, ∃ rr0 ∈ l, rr.len = rr0.len := by
  intro rr hrr
  obtain ⟨i, hi, hget⟩ := List.mem_iff_getElem.mp hrr
  rw [List.getElem_modify] at hget
  have hi2 : i < l.length := by rw [List.length_modify] at hi; exact hi
  by_cases hik : k = i
  · rw [if_pos hik] at hget
    refine ⟨l.get ⟨i, hi2⟩, ?_, ?_⟩
    · exact List.mem_iff_getElem.mpr ⟨i, hi2, rfl⟩
    · rw [← hget, hf]
      exact rfl
  · rw [if_neg hik] at hget
    refine ⟨l.get ⟨i, hi2⟩, ?_, ?_⟩
    · exact List.mem_iff_getElem.mpr ⟨i, hi2, rfl⟩
    · rw [← hget]
      exact rfl

theorem downloadGotpktAfter_shape (x : FxpXfer) (k : Nat) (retlen : Int) :
    ∃ (fd fs : Nat) (e : Bool),
      (downloadGotpktAfter x k retlen).1 =
        { x with furthestdata := fd, filesize := fs, err := e } := by
  simp only [downloadGotpktAfter]
  repeat' split
  all_goals exact ⟨_, _, _, rfl⟩

theorem gotpkt_core_shape (x : FxpXfer) (k : Nat) (retlen errtype : Int) :
    ∃ (q : List Req) (fd fs : Nat) (e eo : Bool),
      (xfer_download_gotpkt_core x k retlen errtype).1 =
        { x with queue := q, furthestdata := fd, filesize := fs,
                 err := e, eof := eo } ∧
      (∀ rr ∈ q, ∃ rr0 ∈ x.queue, rr.len = rr0.len) := by
  have hmem3 : ∀ rr ∈ List.modify (fun rr => { rr with complete := 1 }) k
      (List.modify (fun rr => { rr with complete := -1 }) k
        (List.modify (fun rr => { rr with retlen := retlen }) k x.queue)),
      ∃ rr0 ∈ x.queue, rr.len = rr0.len := by
    intro rr hrr
    obtain ⟨r1, h1, e1⟩ :=
      mem_modify_len (fun rr => { rr with complete := 1 }) (fun r => rfl) k _ rr hrr
    obtain ⟨r2, h2, e2⟩ :=
      mem_modify_len (fun rr => { rr with complete := -1 }) (fun r => rfl) k _ r1 h1
    obtain ⟨r3, h3, e3⟩ :=
      mem_modify_len (fun rr => { rr with retlen := retlen }) (fun r => rfl) k _ r2 h2
    exact ⟨r3, h3, by rw [e1, e2, e3]⟩
  have hmem2 : ∀ (g : Req → Req), (∀ r, (g r).len = r.len) →
      ∀ rr ∈ List.modify g k
        (List.modify (fun rr => { rr with retlen := retlen }) k x.queue),
      ∃ rr0 ∈ x.queue, rr.len = rr0.len := by
    intro g hg rr hrr
    obtain ⟨r1, h1, e1⟩ := mem_modify_len g hg k _ rr hrr
    obtain ⟨r2, h2, e2⟩ :=
      mem_modify_len (fun rr => { rr with retlen := retlen }) (fun r => rfl) k _ r1 h1
    exact ⟨r2, h2, by rw [e1, e2]⟩
  simp only [xfer_download_gotpkt_core]
  by_cases hA : (retlen < 0 ∧ errtype = 1) ∨ retlen = 0
  · rw [if_pos hA]
    obtain ⟨fd, fs, e, hshape⟩ := downloadGotpktAfter_shape
      { x with eof := true,
               queue := List.modify (fun rr => { rr with complete := 1 }) k
                 (List.modify (fun rr => { rr with complete := -1 }) k
                   (List.modify (fun rr => { rr with retlen := retlen }) k x.queue)) }
      k retlen
    refine ⟨List.modify (fun rr => { rr with complete := 1 }) k
        (List.modify (fun rr => { rr with complete := -1 }) k
          (List.modify (fun rr => { rr with retlen := retlen }) k x.queue)),
      fd, fs, e, true, ?_, hmem3⟩
    rw [hshape]
  · rw [if_neg hA]
    by_cases hB : retlen < 0
    · rw [if_pos hB]
      exact ⟨List.modify (fun rr => { rr with complete := -1 }) k
          (List.modify (fun rr => { rr with retlen := retlen }) k x.queue),
        x.furthestdata, x.filesize, true, x.eof, rfl,
        hmem2 (fun rr => { rr with complete := -1 }) (fun r => rfl)⟩
    · rw [if_neg hB]
      obtain ⟨fd, fs, e, hshape⟩ := downloadGotpktAfter_shape
        { x with queue := List.modify (fun rr => { rr with complete := 1 }) k
                   (List.modify (fun rr => { rr with retlen := retlen }) k x.queue) }
        k retlen
      refine ⟨List.modify (fun rr => { rr with complete := 1 }) k
          (List.modify (fun rr => { rr with retlen := retlen }) k x.queue),
        fd, fs, e, x.eof, ?_,
        hmem2 (fun rr => { rr with complete := 1 }) (fun r => rfl)⟩
      rw [hshape]

theorem download_gotpkt_full_state (e : Int) (reg : Registry) (x : FxpXfer)
    (p : Option Packet) (res : Registry × FxpXfer × Int)
    (h : xfer_download_gotpkt e reg x p = some res) :
    res.2.1 = x ∨
    ∃ k retlen errtype, res.2.1 = (xfer_download_gotpkt_core x k retlen errtype).1 := by
  unfold xfer_download_gotpkt at h
  split at h
  · exact absurd h (by simp)
  · exact absurd h (by simp)
  · split at h
    · left
      have h2 := Option.some_injective _ h
      rw [← h2]
    · right
      have h2 := Option.some_injective _ h
      rw [← h2]
      exact ⟨_, _, _, rfl⟩

theorem windowInv_step {x y : FxpXfer} (hx : WindowInv x) (hstep : DStep x y) :
    WindowInv y := by
  obtain ⟨hm, ht, hq⟩ := hx
  cases hstep with
  | queue_more =>
    obtain ⟨ha, hb, hqq⟩ := download_queue_props _ x rfl
    refine ⟨by rw [ha, hm], by omega, ?_⟩
    intro rr hrr
    rcases hqq rr hrr with h | h
    · exact hq rr h
    · exact h
  | gotpkt k retlen errtype =>
    obtain ⟨q, fd, fs, e, eo, heq, hmem⟩ := gotpkt_core_shape x k retlen errtype
    rw [heq]
    refine ⟨hm, ht, ?_⟩
    intro rr hrr
    obtain ⟨rr0, h0, hlen⟩ := hmem rr hrr
    rw [hlen]
    exact hq rr0 h0
  | gotpkt_full e reg p res hres =>
    rcases download_gotpkt_full_state e reg x p res hres with h | ⟨k, retlen, errtype, h⟩
    · rw [h]
      exact ⟨hm, ht, hq⟩
    · rw [h]
      obtain ⟨q, fd, fs, er, eo, heq, hmem⟩ := gotpkt_core_shape x k retlen errtype
      rw [heq]
      refine ⟨hm, ht, ?_⟩
      intro rr hrr
      obtain ⟨rr0, h0, hlen⟩ := hmem rr hrr
      rw [hlen]
      exact hq rr0 h0
  | data =>
    have hlen : ∀ rr ∈ x.queue, (0 : Int) ≤ rr.len := by
      intro rr h
      rw [hq rr h]
      omega
    obtain ⟨h1, h2⟩ := download_data_loop_le x.queue x.req_totalsize hlen
    refine ⟨hm, by dsimp only [xfer_download_data]; omega, ?_⟩
    intro rr hrr
    exact hq rr (h2 rr hrr)

/-- C5.  Download window invariant: in every transfer state reachable from
`xfer_download_init` by any sequence of `xfer_download_queue`,
`xfer_download_gotpkt` (full arrival path or gotpkt body) and
`xfer_download_data` calls, the in-flight byte total satisfies
`req_totalsize ≤ req_maxsize + per_request_read_size - 1` with
`req_maxsize = 1048576` and per-request read size 32768, because
`xfer_download_queue` only issues another 32768-byte read while
`req_totalsize < req_maxsize`. -/
theorem claim_C5_window_invariant (off : Nat) (x : FxpXfer)
    (hreach : Relation.ReflTransGen DStep (xfer_download_init off) x) :
    x.req_totalsize ≤ 1048576 + 32768 - 1 := by
  have hinit : WindowInv (xfer_download_init off) := by
    unfold xfer_download_init
    obtain ⟨ha, hb, hqq⟩ := download_queue_props _ { xfer_init off with eof := false } rfl
    have hm0 : ({ xfer_init off with eof := false } : FxpXfer).req_maxsize = 1048576 := rfl
    have ht0 : ({ xfer_init off with eof := false } : FxpXfer).req_totalsize = 0 := rfl
    refine ⟨by rw [ha, hm0], by omega, ?_⟩
    intro rr hrr
    rcases hqq rr hrr with h | h
    · exact absurd h (by simp [xfer_init])
    · exact h
  have hinv : WindowInv x := by
    induction hreach with
    | refl => exact hinit
    | tail _hsteps hstep ih => exact windowInv_step ih hstep
  exact hinv.2.1

/-- Closed witness for C5 at the freshly initialised download state. -/
theorem claim_C5_witness :
    (xfer_download_init 0).req_totalsize ≤ 1048576 + 32768 - 1 :=
  claim_C5_window_invariant 0 (xfer_download_init 0) Relation.ReflTransGen.refl

theorem downloadGotpktAfter_ret (x : FxpXfer) (k : Nat) (retlen : Int) :
    (downloadGotpktAfter x k retlen).2 = -1 ∨ (downloadGotpktAfter x k retlen).2 = 1 := by
  have hfin : ∀ y : FxpXfer,
      ((if y.filesize < y.furthestdata
        then ({ y with err := true }, (-1 : Int)) else (y, (1 : Int))).2 = -1 ∨
       (if y.filesize < y.furthestdata
        then ({ y with err := true }, (-1 : Int)) else (y, (1 : Int))).2 = 1) := by
    intro y
    split
    · exact Or.inl rfl
    · exact Or.inr rfl
  simp only [downloadGotpktAfter]
  exact hfin _

theorem gotpkt_core_ret (x : FxpXfer) (k : Nat) (retlen errtype : Int) :
    (xfer_download_gotpkt_core x k retlen errtype).2 = -1 ∨
    (xfer_download_gotpkt_core x k retlen errtype).2 = 1 := by
  simp only [xfer_download_gotpkt_core]
  by_cases hA : (retlen < 0 ∧ errtype = 1) ∨ retlen = 0
  · rw [if_pos hA]
    exact downloadGotpktAfter_ret _ _ _
  · rw [if_neg hA]
    by_cases hB : retlen < 0
    · rw [if_pos hB]
      exact Or.inl rfl
    · rw [if_neg hB]
      exact downloadGotpktAfter_ret _ _ _

/-- C9 (implicit).  Safe operation of the transfer-engine arrival entry
points has the precondition that the packet's leading id names an
outstanding registered request: both `xfer_download_gotpkt` and
`xfer_upload_gotpkt` hand the descriptor returned by `sftp_find_request`
straight to `fxp_get_userdata` with no null check, so when correlation
fails (unknown or unregistered id) the execution leaves the defined
embedding (`none`); and the "this packet isn't ours, return 0" path is
reached only when correlation succeeded but the descriptor's userdata is
null. -/
theorem claim_C9_correlation_precondition :
    (∀ (e : Int) (reg : Registry) (x : FxpXfer) (p : Option Packet),
      (sftp_find_request reg p).req = none →
      xfer_download_gotpkt e reg x p = none ∧ xfer_upload_gotpkt reg x p = none) ∧
    (∀ (reg : Registry) (pkt : Packet) (i : Nat) (pkt1 : Packet),
      sftp_pkt_getuint32 pkt = some (i, pkt1) →
      (∀ rq ∈ reg, rq.id ≠ i ∨ rq.registered = false) →
      (sftp_find_request reg (some pkt)).req = none) ∧
    (∀ (e : Int) (reg : Registry) (x : FxpXfer) (p : Option Packet)
       (res : Registry × FxpXfer × Int),
      xfer_download_gotpkt e reg x p = some res → res.2.2 = 0 →
      ∃ rq, (sftp_find_request reg p).req = some rq ∧ rq.userdata = none) ∧
    (∀ (reg : Registry) (x : FxpXfer) (p : Option Packet)
       (res : Registry × FxpXfer × Int),
      xfer_upload_gotpkt reg x p = some res → res.2.2 = 0 →
      ∃ rq, (sftp_find_request reg p).req = some rq ∧ rq.userdata = none) := by
  refine ⟨?_, ?_, ?_, ?_⟩
  · intro e reg x p hreq
    constructor
    · unfold xfer_download_gotpkt
      rw [hreq]
    · unfold xfer_upload_gotpkt
      rw [hreq]
  · intro reg pkt i pkt1 hu hnone
    cases hfind : find234 i reg with
    | none =>
      have hres : sftp_find_request reg (some pkt) =
          ⟨none, reg, some pkt1, true, some msgIdMismatch⟩ := by
        rw [sftp_find_request, hu]
        dsimp only
        rw [hfind]
      rw [hres]
    | some rq =>
      obtain ⟨hid, hmem⟩ := find234_eq_some hfind
      have hunreg : rq.registered = false := by
        rcases hnone rq hmem with h | h
        · exact absurd hid h
        · exact h
      have hres : sftp_find_request reg (some pkt) =
          ⟨none, reg, some pkt1, true, some msgIdMismatch⟩ := by
        rw [sftp_find_request, hu]
        dsimp only
        rw [hfind]
        dsimp only
        rw [if_neg (by simp [hunreg])]
      rw [hres]
  · intro e reg x p res h hret
    unfold xfer_download_gotpkt at h
    split at h
    · exact absurd h (by simp)
    · exact absurd h (by simp)
    case _ rq pkt1 hreq hpkt =>
      cases hud : rq.userdata with
      | none => exact ⟨rq, hreq, hud⟩
      | some k =>
        rw [hud] at h
        have h2 := Option.some_injective _ h
        exfalso
        have h3 : res.2.2 = (xfer_download_gotpkt_core x k
            (fxp_read_recv e pkt1 (x.queue.getD k default).len).1
            (fxp_read_recv e pkt1 (x.queue.getD k default).len).2).2 := by
          rw [← h2]
        rcases gotpkt_core_ret x k (fxp_read_recv e pkt1 (x.queue.getD k default).len).1
            (fxp_read_recv e pkt1 (x.queue.getD k default).len).2 with h4 | h4 <;>
          rw [hret] at h3 <;> omega
  · intro reg x p res h hret
    unfold xfer_upload_gotpkt at h
    split at h
    · exact absurd h (by simp)
    · exact absurd h (by simp)
    case _ rq pkt1 hreq hpkt =>
      cases hud : rq.userdata with
      | none => exact ⟨rq, hreq, hud⟩
      | some k =>
        rw [hud] at h
        have h2 := Option.some_injective _ h
        exfalso
        have h3 : res.2.2 = (xfer_upload_gotpkt_core x k (fxp_write_recv pkt1).1).2 := by
          rw [← h2]
        unfold xfer_upload_gotpkt_core at h3
        rw [hret] at h3
        by_cases hw : (fxp_write_recv pkt1).1 = true
        · rw [hw] at h3
          simp at h3
        · rw [Bool.not_eq_true] at hw
          rw [hw] at h3
          simp at h3

/-- Closed witness for C9: with no outstanding request, correlation fails
and both arrival entry points are undefined (null dereference). -/
theorem claim_C9_witness :
    (sftp_pkt_getuint32 pkt9 = some (999, pkt9after) ∧
     (∀ rq ∈ ([] : Registry), rq.id ≠ 999 ∨ rq.registered = false)) ∧
    ((sftp_find_request [] (some pkt9)).req = none ∧
     xfer_download_gotpkt 0 [] xfer9 (some pkt9) = none ∧
     xfer_upload_gotpkt [] xfer9 (some pkt9) = none) := by
  have h2 := claim_C9_correlation_precondition.2.1 [] pkt9 999 pkt9after
    (by decide) (by decide)
  have h1 := claim_C9_correlation_precondition.1 0 [] xfer9 (some pkt9) h2
  exact ⟨⟨by decide, by decide⟩, ⟨h2, h1.1, h1.2⟩⟩

/-- C8.  READDIR count validation: a NAME reply whose declared count
exceeds (remaining bytes)/12 is rejected before any allocation with errtype
-1 and message "malformed FXP_NAME packet"; a count passing that check but
exceeding INT_MAX divided by the per-name record size is also rejected
before allocating; names are decoded only when both guards pass. -/
theorem claim_C8_readdir_count_guard (sizeofName : Nat) (pkt : Packet)
    (i : Nat) (p1 : Packet)
    (ht : pkt.type = SSH_FXP_NAME)
    (hu : sftp_pkt_getuint32 pkt = some (i, p1)) :
    ((p1.data.length - p1.savedpos) / 12 < i →
      fxp_readdir_recv sizeofName pkt = .err (-1) msgMalformedName false) ∧
    (i ≤ (p1.data.length - p1.savedpos) / 12 → INT_MAX / sizeofName < i →
      fxp_readdir_recv sizeofName pkt = .err (-1) msgUnreasonable false) ∧
    (∀ names, fxp_readdir_recv sizeofName pkt = .ok names →
      i ≤ (p1.data.length - p1.savedpos) / 12 ∧ i ≤ INT_MAX / sizeofName) := by
  have hbase : fxp_readdir_recv sizeofName pkt =
      (if i > (p1.data.length - p1.savedpos) / 12 then
        ReaddirResult.err (-1) msgMalformedName false
      else if i > INT_MAX / sizeofName then
        ReaddirResult.err (-1) msgUnreasonable false
      else
        match readNames p1 i with
        | none => ReaddirResult.err (-1) msgMalformedName true
        | some (names, _) => ReaddirResult.ok names) := by
    rw [fxp_readdir_recv, if_pos ht, hu]
  refine ⟨?_, ?_, ?_⟩
  · intro hcount
    rw [hbase, if_pos hcount]
  · intro hcount hbig
    rw [hbase, if_neg (by omega), if_pos hbig]
  · intro names hok
    rw [hbase] at hok
    by_cases h1 : i > (p1.data.length - p1.savedpos) / 12
    · rw [if_pos h1] at hok
      exact absurd hok (by simp)
    · rw [if_neg h1] at hok
      by_cases h2 : i > INT_MAX / sizeofName
      · rw [if_pos h2] at hok
        exact absurd hok (by simp)
      · exact ⟨by omega, by omega⟩

/-- Closed witness for C8 at the spec's concrete scenario (per-name record
size 56 bytes). -/
theorem claim_C8_witness :
    (pkt8.type = SSH_FXP_NAME ∧
     sftp_pkt_getuint32 pkt8 = some (1000000, pkt8after) ∧
     (pkt8after.data.length - pkt8after.savedpos) / 12 < 1000000) ∧
    fxp_readdir_recv 56 pkt8 = .err (-1) msgMalformedName false :=
  ⟨⟨by decide, by decide, by decide⟩,
   (claim_C8_readdir_count_guard 56 pkt8 1000000 pkt8after
     (by decide) (by decide)).1 (by decide)⟩

theorem addstring_spec (p : OutPacket) (s : List Nat) :
    sftp_pkt_addstring_data (sftp_pkt_addstring_start p) s =
      ⟨p.data ++ PUT32 s.length ++ s, p.data.length + 4⟩ := by
  unfold sftp_pkt_addstring_data sftp_pkt_addstring_start sftp_pkt_adduint32
    sftp_pkt_adddata put32At
  dsimp only
  have hL : (p.data ++ PUT32 0).length = p.data.length + 4 := by
    rw [List.length_append]
    rfl
  have hpos : (p.data ++ PUT32 0).length - 4 = p.data.length := by omega
  have hval : ((p.data ++ PUT32 0) ++ s).length - (p.data ++ PUT32 0).length
      = s.length := by
    rw [List.length_append]
    omega
  have htake : ((p.data ++ PUT32 0) ++ s).take p.data.length = p.data := by
    rw [List.append_assoc]
    exact List.take_left' rfl
  rw [hpos, hval, hL, htake, List.drop_left' hL]

theorem getstring_exact (pkt : Packet) (w : List Nat)
    (hposn : pkt.savedpos ≤ pkt.data.length) (hsz : pkt.data.length < two31)
    (hok : (sftp_pkt_getstring pkt).ok = true)
    (hp : (sftp_pkt_getstring pkt).p = some w) :
    0 ≤ (sftp_pkt_getstring pkt).len ∧
    (sftp_pkt_getstring pkt).len.toNat = w.length := by
  unfold sftp_pkt_getstring at hok hp ⊢
  by_cases h4 : pkt.data.length - pkt.savedpos < 4
  · rw [if_pos h4] at hok
    simp at hok
  · rw [if_neg h4] at hok hp ⊢
    by_cases hf : wrap32 ((pkt.data.length - (pkt.savedpos + 4)) % two32) <
        wrap32 (get32 pkt.data pkt.savedpos) ∨ wrap32 (get32 pkt.data pkt.savedpos) < 0
    · rw [if_pos hf] at hok
      simp at hok
    · rw [if_neg hf] at hok hp ⊢
      push_neg at hf
      obtain ⟨hsize, hnn⟩ := hf
      have hrem : (pkt.data.length - (pkt.savedpos + 4)) % two32
          = pkt.data.length - (pkt.savedpos + 4) := by
        apply Nat.mod_eq_of_lt
        unfold two32 two31 at *
        omega
      have hremcast : wrap32 ((pkt.data.length - (pkt.savedpos + 4)) % two32)
          = ((pkt.data.length : Int) - (pkt.savedpos : Int) - 4) := by
        rw [hrem]
        unfold wrap32
        rw [if_pos (by unfold two31 two32 at *; omega)]
        omega
      rw [hremcast] at hsize
      have hw : w = (pkt.data.drop (pkt.savedpos + 4)).take
          (wrap32 (get32 pkt.data pkt.savedpos)).toNat :=
        (Option.some_injective _ hp).symm
      refine ⟨hnn, ?_⟩
      rw [hw, List.length_take, List.length_drop]
      have hfit : (wrap32 (get32 pkt.data pkt.savedpos)).toNat ≤
          pkt.data.length - (pkt.savedpos + 4) := by omega
      rw [min_eq_left hfit]

/-- C10.  Handle round-trip: a HANDLE reply carrying wire string `w` (NUL
bytes allowed) is stored by `fxp_open_recv`/`fxp_opendir_recv` as an exact
copy with `hlen = w.length` plus an uncounted trailing NUL, and
`fxp_close_send`, `fxp_fstat_send`, `fxp_readdir_send`, `fxp_read_send`
and `fxp_write_send` re-emit exactly those `hlen` bytes, so the handle
echoed to the server is byte-for-byte the handle received. -/
theorem claim_C10_handle_roundtrip (pkt : Packet) (w : List Nat)
    (id : Nat) (offset : Nat) (len : Int) (buffer : List Nat)
    (hposn : pkt.savedpos ≤ pkt.data.length)
    (hsz : pkt.data.length < two31)
    (ht : pkt.type = SSH_FXP_HANDLE)
    (hok : (sftp_pkt_getstring pkt).ok = true)
    (hp : (sftp_pkt_getstring pkt).p = some w) :
    ∃ h : FxpHandle,
      fxp_open_recv pkt = some h ∧ fxp_opendir_recv pkt = some h ∧
      h.hstring = w ++ [0] ∧ h.hlen = (w.length : Int) ∧
      h.hstring.take h.hlen.toNat = w ∧
      (fxp_close_send_pkt id h).data = [4] ++ PUT32 id ++ PUT32 w.length ++ w ∧
      (fxp_fstat_send_pkt id h).data = [8] ++ PUT32 id ++ PUT32 w.length ++ w ∧
      (fxp_readdir_send_pkt id h).data = [12] ++ PUT32 id ++ PUT32 w.length ++ w ∧
      (fxp_read_send_pkt id h offset len).data =
        [5] ++ PUT32 id ++ PUT32 w.length ++ w ++
          PUT32 (offset / two32) ++ PUT32 (offset % two32) ++ PUT32 (u32ofInt len) ∧
      (fxp_write_send_pkt id h buffer offset len).data =
        [6] ++ PUT32 id ++ PUT32 w.length ++ w ++
          PUT32 (offset / two32) ++ PUT32 (offset % two32) ++
          PUT32 (buffer.take len.toNat).length ++ buffer.take len.toNat := by
  obtain ⟨hnn, hlenw⟩ := getstring_exact pkt w hposn hsz hok hp
  have hgetD : (sftp_pkt_getstring pkt).p.getD [] = w := by rw [hp]; rfl
  have hstr : mkstr ((sftp_pkt_getstring pkt).p.getD [])
      (sftp_pkt_getstring pkt).len.toNat = w ++ [0] := by
    rw [hgetD, hlenw]
    unfold mkstr
    rw [List.take_length]
  have hlenInt : (sftp_pkt_getstring pkt).len = (w.length : Int) := by
    have h1 : (((sftp_pkt_getstring pkt).len.toNat : Nat) : Int) =
        (sftp_pkt_getstring pkt).len := Int.toNat_of_nonneg hnn
    rw [← h1, hlenw]
  have htake : (mkstr ((sftp_pkt_getstring pkt).p.getD [])
      (sftp_pkt_getstring pkt).len.toNat).take
      (sftp_pkt_getstring pkt).len.toNat = w := by
    rw [hstr, hlenw]
    exact List.take_left' rfl
  refine ⟨⟨mkstr ((sftp_pkt_getstring pkt).p.getD [])
      (sftp_pkt_getstring pkt).len.toNat, (sftp_pkt_getstring pkt).len⟩,
    ?_, ?_, hstr, hlenInt, htake, ?_, ?_, ?_, ?_, ?_⟩
  · unfold fxp_open_recv
    rw [if_pos ht, if_neg (by simp [hok])]
  · unfold fxp_opendir_recv
    rw [if_pos ht, if_neg (by simp [hok])]
  · unfold fxp_close_send_pkt
    dsimp only
    rw [htake, addstring_spec]
    simp [sftp_pkt_init, sftp_pkt_addbyte, sftp_pkt_adddata, sftp_pkt_adduint32]
  · unfold fxp_fstat_send_pkt
    dsimp only
    rw [htake, addstring_spec]
    simp [sftp_pkt_init, sftp_pkt_addbyte, sftp_pkt_adddata, sftp_pkt_adduint32]
  · unfold fxp_readdir_send_pkt
    dsimp only
    rw [htake, addstring_spec]
    simp [sftp_pkt_init, sftp_pkt_addbyte, sftp_pkt_adddata, sftp_pkt_adduint32]
  · unfold fxp_read_send_pkt
    dsimp only
    rw [htake, addstring_spec]
    simp [sftp_pkt_init, sftp_pkt_addbyte, sftp_pkt_adddata, sftp_pkt_adduint32,
      sftp_pkt_adduint64]
  · unfold fxp_write_send_pkt
    dsimp only
    rw [htake, addstring_spec, addstring_spec]
    simp [sftp_pkt_init, sftp_pkt_addbyte, sftp_pkt_adddata, sftp_pkt_adduint32,
      sftp_pkt_adduint64]

/-- Closed witness for C10 at `pkt10`, id 257, offset 4096, a 2-byte write
buffer. -/
theorem claim_C10_witness :
    (pkt10.savedpos ≤ pkt10.data.length ∧ pkt10.data.length < two31 ∧
     pkt10.type = SSH_FXP_HANDLE ∧
     (sftp_pkt_getstring pkt10).ok = true ∧
     (sftp_pkt_getstring pkt10).p = some [65, 0, 66]) ∧
    (∃ h : FxpHandle,
      fxp_open_recv pkt10 = some h ∧ fxp_opendir_recv pkt10 = some h ∧
      h.hstring = [65, 0, 66] ++ [0] ∧
      h.hlen = (([65, 0, 66] : List Nat).length : Int) ∧
      h.hstring.take h.hlen.toNat = [65, 0, 66] ∧
      (fxp_close_send_pkt 257 h).data =
        [4] ++ PUT32 257 ++ PUT32 ([65, 0, 66] : List Nat).length ++ [65, 0, 66] ∧
      (fxp_fstat_send_pkt 257 h).data =
        [8] ++ PUT32 257 ++ PUT32 ([65, 0, 66] : List Nat).length ++ [65, 0, 66] ∧
      (fxp_readdir_send_pkt 257 h).data =
        [12] ++ PUT32 257 ++ PUT32 ([65, 0, 66] : List Nat).length ++ [65, 0, 66] ∧
      (fxp_read_send_pkt 257 h 4096 2).data =
        [5] ++ PUT32 257 ++ PUT32 ([65, 0, 66] : List Nat).length ++ [65, 0, 66] ++
          PUT32 (4096 / two32) ++ PUT32 (4096 % two32) ++ PUT32 (u32ofInt 2) ∧
      (fxp_write_send_pkt 257 h [9, 8] 4096 2).data =
        [6] ++ PUT32 257 ++ PUT32 ([65, 0, 66] : List Nat).length ++ [65, 0, 66] ++
          PUT32 (4096 / two32) ++ PUT32 (4096 % two32) ++
          PUT32 (([9, 8] : List Nat).take (2 : Int).toNat).length ++
          ([9, 8] : List Nat).take (2 : Int).toNat) :=
  ⟨⟨by decide, by decide, by decide, by decide, by decide⟩,
   claim_C10_handle_roundtrip pkt10 [65, 0, 66] 257 4096 2 [9, 8]
     (by decide) (by decide) (by decide) (by decide) (by decide)⟩

end Sftp

